import Mathlib

/-!
Verification development for the diagram-ingestion pipeline
(document validation → GPT response parsing → scene-graph building →
Neo4j persistence → graph-grounded querying).

The Python sources are shallowly embedded as executable Lean definitions:
JSON values from `json.loads` become the inductive `Json` (numbers are
modelled as integers; no claim depends on fractional values), pydantic
models become structures with fallible constructors returning `Option`,
the Neo4j session becomes an explicit `Store` state with MERGE modelled
as a keyed upsert, and external calls (OpenAI, `time.sleep`, `uuid4`)
become explicit parameters (an answer function, a recorded delay list, a
generator `Nat → String` of successive uuid draws).
-/

namespace BuildingIntelligence

/-- JSON-compatible values as returned by `json.loads`. Object fields are
an association list (keys unique in practice); numbers are modelled as
integers. -/
inductive Json where
  | null
  | bool (b : Bool)
  | num (n : Int)
  | str (s : String)
  | arr (elems : List Json)
  | obj (fields : List (String × Json))

/-- Lookup of a key in a JSON object's field list: `d.get(k)` on a dict. -/
def jlookup (kvs : List (String × Json)) (k : String) : Option Json :=
  (kvs.find? (fun p => p.1 = k)).map (fun p => p.2)

/-- Python `d[k] = v` on a dict modelled over an association list: replace
the value if the key is present, append otherwise. -/
def setKey (kvs : List (String × Json)) (k : String) (v : Json) : List (String × Json) :=
  if k ∈ kvs.map (fun p => p.1) then
    kvs.map (fun p => if p.1 = k then (p.1, v) else p)
  else
    kvs ++ [(k, v)]

mutual
/-- Rendering used to model Python `str(value)` on dict/list values during
metadata/property flattening (`database.py`). The exact text is never
inspected by the pipeline; this follows Python repr conventions loosely. -/
def renderJson : Json → String
  | .null => "None"
  | .bool true => "True"
  | .bool false => "False"
  | .num n => toString n
  | .str s => "'" ++ s ++ "'"
  | .arr xs => "[" ++ renderList xs ++ "]"
  | .obj kvs => "\x7b" ++ renderFields kvs ++ "\x7d"

def renderList : List Json → String
  | [] => ""
  | [x] => renderJson x
  | x :: y :: xs => renderJson x ++ ", " ++ renderList (y :: xs)

def renderFields : List (String × Json) → String
  | [] => ""
  | [p] => "'" ++ p.1 ++ "': " ++ renderJson p.2
  | p :: q :: ps => "'" ++ p.1 ++ "': " ++ renderJson p.2 ++ ", " ++ renderFields (q :: ps)
end

/-- Flattening of one value before persistence: dict/list values are
serialized to their string form, scalars pass through
(`database.py`, `store_scene_graph`). -/
def flattenVal (v : Json) : Json :=
  match v with
  | .obj kvs => .str (renderJson (.obj kvs))
  | .arr xs => .str (renderJson (.arr xs))
  | v => v

/-- Flattening of a whole property/metadata bag. -/
def flattenObj (kvs : List (String × Json)) : List (String × Json) :=
  kvs.map (fun p => (p.1, flattenVal p.2))

/-- The fixed component enumeration (`models.ComponentType`). -/
inductive ComponentType where
  | pipe | fixture | connector | vent | valve | fitting
deriving DecidableEq, Repr

/-- String value of a component tag (`.value` on the str-Enum). -/
def ComponentType.value : ComponentType → String
  | .pipe => "pipe"
  | .fixture => "fixture"
  | .connector => "connector"
  | .vent => "vent"
  | .valve => "valve"
  | .fitting => "fitting"

/-- Coercion `ComponentType(x)` for a string argument; `ValueError`
(modelled as `none`) when the string is not a member value. -/
def componentTypeFromString (s : String) : Option ComponentType :=
  if s = "pipe" then some .pipe
  else if s = "fixture" then some .fixture
  else if s = "connector" then some .connector
  else if s = "vent" then some .vent
  else if s = "valve" then some .valve
  else if s = "fitting" then some .fitting
  else none

/-- Coercion `ComponentType(x)` for an arbitrary JSON value: non-string
values always raise `ValueError`. -/
def componentTypeFromJson (v : Json) : Option ComponentType :=
  match v with
  | .str s => componentTypeFromString s
  | _ => none

/-- The fixed relationship enumeration (`models.RelationshipType`). -/
inductive RelationshipType where
  | connects_to | above | below | contains | flows_to | supports | parallel_to
deriving DecidableEq, Repr

/-- String value of a relationship tag. -/
def RelationshipType.value : RelationshipType → String
  | .connects_to => "CONNECTS_TO"
  | .above => "ABOVE"
  | .below => "BELOW"
  | .contains => "CONTAINS"
  | .flows_to => "FLOWS_TO"
  | .supports => "SUPPORTS"
  | .parallel_to => "PARALLEL_TO"

/-- Coercion `RelationshipType(x)` for a string argument. -/
def relationshipTypeFromString (s : String) : Option RelationshipType :=
  if s = "CONNECTS_TO" then some .connects_to
  else if s = "ABOVE" then some .above
  else if s = "BELOW" then some .below
  else if s = "CONTAINS" then some .contains
  else if s = "FLOWS_TO" then some .flows_to
  else if s = "SUPPORTS" then some .supports
  else if s = "PARALLEL_TO" then some .parallel_to
  else none

/-- Coercion `RelationshipType(x)` for an arbitrary JSON value. -/
def relationshipTypeFromJson (v : Json) : Option RelationshipType :=
  match v with
  | .str s => relationshipTypeFromString s
  | _ => none

/-- Validated component (`models.SceneGraphNode`). `position` and
`dimensions` are optional dicts of numbers (pydantic `Dict[str, float]`;
we model the numbers as integers). -/
structure SceneGraphNode where
  id : String
  type : ComponentType
  name : String
  properties : List (String × Json)
  position : Option (List (String × Int))
  dimensions : Option (List (String × Int))

/-- Validated relationship (`models.SceneGraphRelationship`). -/
structure SceneGraphRelationship where
  source_id : String
  target_id : String
  type : RelationshipType
  properties : Option (List (String × Json))

/-- Validated aggregate (`models.SceneGraph`). -/
structure SceneGraph where
  diagram_id : String
  title : Option String
  nodes : List SceneGraphNode
  relationships : List SceneGraphRelationship
  metadata : List (String × Json)

/-- Validation of the `id` field: absent ⇒ the freshly drawn uuid `u`;
present string passes; any other present value fails pydantic `str`
validation. -/
def idField (u : String) (kvs : List (String × Json)) : Option String :=
  match jlookup kvs "id" with
  | none => some u
  | some (.str s) => some s
  | some _ => none

/-- Validation of the `name` field: absent ⇒ the default `"Unknown"`. -/
def nameField (kvs : List (String × Json)) : Option String :=
  match jlookup kvs "name" with
  | none => some "Unknown"
  | some (.str s) => some s
  | some _ => none

/-- Validation of the `properties` field: absent ⇒ the default empty
dict; a present value must be a dict. -/
def propsField (kvs : List (String × Json)) : Option (List (String × Json)) :=
  match jlookup kvs "properties" with
  | none => some []
  | some (.obj p) => some p
  | some _ => none

/-- Validation of one optional dict-of-numbers field (`position` /
`dimensions`): absent or null ⇒ `None`; a present dict must have numeric
values. -/
def numDictField (key : String) (kvs : List (String × Json)) : Option (Option (List (String × Int))) :=
  match jlookup kvs key with
  | none => some none
  | some .null => some none
  | some (.obj p) =>
    (p.foldr (fun q acc =>
      acc.bind (fun l =>
        match q.2 with
        | .num n => some ((q.1, n) :: l)
        | _ => none)) (some [])).map some
  | some _ => none

/-- One iteration of the component loop in
`SceneGraphService._convert_to_scene_graph`: construct a
`SceneGraphNode` from a candidate dict, with `u` the uuid drawn for the
`id` default. `none` models the caught exception (skip). -/
def mkNodeFromObj (u : String) (kvs : List (String × Json)) : Option SceneGraphNode :=
  match componentTypeFromJson ((jlookup kvs "type").getD (Json.str "pipe")) with
  | none => none
  | some ty =>
    match idField u kvs with
    | none => none
    | some nid =>
      match nameField kvs with
      | none => none
      | some nm =>
        match propsField kvs with
        | none => none
        | some props =>
          match numDictField "position" kvs with
          | none => none
          | some pos =>
            match numDictField "dimensions" kvs with
            | none => none
            | some dims =>
              some { id := nid, type := ty, name := nm, properties := props,
                     position := pos, dimensions := dims }

/-- Candidate-component conversion on an arbitrary JSON entry: non-dict
entries fail attribute lookup (`.get`) inside the `try` and are skipped. -/
def mkNodeFromJson (u : String) (j : Json) : Option SceneGraphNode :=
  match j with
  | .obj kvs => mkNodeFromObj u kvs
  | _ => none

/-- One iteration of the relationship loop: construct a
`SceneGraphRelationship` from a candidate entry; `none` models the
caught exception (skip). A missing `source_id`/`target_id` yields `None`,
which fails pydantic `str` validation. -/
def mkRelFromJson (j : Json) : Option SceneGraphRelationship :=
  match j with
  | .obj kvs =>
    match jlookup kvs "source_id" with
    | some (.str src) =>
      match jlookup kvs "target_id" with
      | some (.str tgt) =>
        match relationshipTypeFromJson ((jlookup kvs "type").getD (Json.str "CONNECTS_TO")) with
        | none => none
        | some ty =>
          match jlookup kvs "properties" with
          | none => some { source_id := src, target_id := tgt, type := ty, properties := none }
          | some .null => some { source_id := src, target_id := tgt, type := ty, properties := none }
          | some (.obj p) => some { source_id := src, target_id := tgt, type := ty, properties := some p }
          | some _ => none
      | _ => none
    | _ => none
  | _ => none

/-- The component loop of the builder, threading the uuid draw index: a
dict candidate always evaluates `str(uuid.uuid4())` as the eagerly
computed `.get('id', …)` default and hence consumes one draw, whether or
not the entry survives. Returns the surviving nodes in order and the
next draw index. -/
def buildNodes (gen : Nat → String) : Nat → List Json → List SceneGraphNode × Nat
  | k, [] => ([], k)
  | k, Json.obj kvs :: js =>
    let rest := buildNodes gen (k + 1) js
    match mkNodeFromObj (gen k) kvs with
    | some n => (n :: rest.1, rest.2)
    | none => rest
  | k, _ :: js => buildNodes gen k js

/-- Failures of the whole build: the candidate graph (or one of its
top-level fields) has a shape on which the Python build raises outside
the per-entry `try` blocks. -/
inductive BuildError where
  | badShape
deriving DecidableEq, Repr

/-- Shallow embedding of `SceneGraphService._convert_to_scene_graph`.
`gen` supplies the successive `uuid.uuid4()` draws starting at index
`k`; the returned index is the next unused draw. The diagram id is the
first draw; the processing timestamp placeholder is the draw taken after
all component candidates. -/
def convert_to_scene_graph (gen : Nat → String) (k : Nat) (sceneData : Json)
    (filename : String) : Except BuildError (SceneGraph × Nat) :=
  match sceneData with
  | .obj top =>
    let diagramId := gen k
    match jlookup top "components" with
    | some (.arr comps) => convertRest gen k top filename diagramId comps
    | none => convertRest gen k top filename diagramId []
    | some _ => .error .badShape
  | _ => .error .badShape
where
  convertRest (gen : Nat → String) (k : Nat) (top : List (String × Json))
      (filename diagramId : String) (comps : List Json) :
      Except BuildError (SceneGraph × Nat) :=
    let built := buildNodes gen (k + 1) comps
    match jlookup top "relationships" with
    | some (.arr rels) => convertTail top filename diagramId built.1 built.2 (rels.filterMap mkRelFromJson) gen
    | none => convertTail top filename diagramId built.1 built.2 [] gen
    | some _ => .error .badShape
  convertTail (top : List (String × Json)) (filename diagramId : String)
      (nodes : List SceneGraphNode) (k1 : Nat)
      (relationships : List SceneGraphRelationship) (gen : Nat → String) :
      Except BuildError (SceneGraph × Nat) :=
    match jlookup top "metadata" with
    | some (.obj meta0) => convertFinish top filename diagramId nodes k1 relationships gen meta0
    | none => convertFinish top filename diagramId nodes k1 relationships gen []
    | some _ => .error .badShape
  convertFinish (top : List (String × Json)) (filename diagramId : String)
      (nodes : List SceneGraphNode) (k1 : Nat)
      (relationships : List SceneGraphRelationship) (gen : Nat → String)
      (meta0 : List (String × Json)) :
      Except BuildError (SceneGraph × Nat) :=
    let metadata := setKey (setKey meta0 "source_filename" (.str filename))
      "processing_timestamp" (.str (gen k1))
    match jlookup top "title" with
    | none => .ok ({ diagram_id := diagramId, title := some ("Diagram from " ++ filename),
                     nodes := nodes, relationships := relationships, metadata := metadata }, k1 + 1)
    | some (.str s) => .ok ({ diagram_id := diagramId, title := some s,
                              nodes := nodes, relationships := relationships, metadata := metadata }, k1 + 1)
    | some .null => .ok ({ diagram_id := diagramId, title := none,
                           nodes := nodes, relationships := relationships, metadata := metadata }, k1 + 1)
    | some _ => .error .badShape

/-! Document processor (`document_processor.py`) and size/extension
configuration (`config.py`). -/

/-- Maximum upload size in bytes (`Config.MAX_FILE_SIZE`, 10 MB). -/
def MAX_FILE_SIZE : Nat := 10 * 1024 * 1024

/-- Extension allow-list (`Config.ALLOWED_EXTENSIONS`). -/
def ALLOWED_EXTENSIONS : List String := [".png", ".jpg", ".jpeg", ".pdf"]

/-- Character-wise lower-casing (`str.lower`). -/
def lowerString (s : String) : String :=
  String.mk (s.data.map Char.toLower)

/-- Splitting a character list at slashes. -/
def splitOnSlash : List Char → List (List Char)
  | [] => [[]]
  | ch :: rest =>
    let r := splitOnSlash rest
    if ch = '/' then [] :: r
    else
      match r with
      | [] => [[ch]]
      | g :: gs => (ch :: g) :: gs

/-- Final path component of a posix path (`pathlib.PurePath.name`):
empty components (leading, repeated and trailing slashes) are dropped,
the last remaining component is the name. -/
def pathName (filename : String) : List Char :=
  (((splitOnSlash filename.data).filter (fun g => g ≠ [])).getLast?).getD []

/-- Index of the last occurrence of `c` in `l` (`str.rfind` for a single
character), as an `Option`. -/
def lastIdxOf (c : Char) (l : List Char) : Option Nat :=
  (List.range l.length).foldl
    (fun acc i => if l.get? i = some c then some i else acc) none

/-- Python `pathlib.PurePath.suffix`: the substring of the final
component from its last dot, except when that dot is leading or
trailing. -/
def pySuffix (filename : String) : String :=
  let nm := pathName filename
  match lastIdxOf '.' nm with
  | none => ""
  | some i => if 0 < i ∧ i < nm.length - 1 then String.mk (nm.drop i) else ""

/-- Validation failures of `DocumentProcessor.validate_file`, classified
per the spec's error taxonomy. -/
inductive FileError where
  | unsupportedFormat (ext : String)
  | fileTooLarge (size max : Nat)
deriving DecidableEq, Repr

/-- Shallow embedding of `DocumentProcessor.validate_file`: the
lower-cased suffix must be in the allow-list, then the byte length must
not exceed the maximum. -/
def validate_file (filename : String) (contentLength : Nat) : Except FileError Unit :=
  let ext := lowerString (pySuffix filename)
  if ext ∈ ALLOWED_EXTENSIONS then
    if contentLength > MAX_FILE_SIZE then
      .error (.fileTooLarge contentLength MAX_FILE_SIZE)
    else
      .ok ()
  else
    .error (.unsupportedFormat ext)

/-- Shallow embedding of `DocumentProcessor.process_file`. The PDF and
image pipelines (PyMuPDF / PIL) are external and passed as abstract
processors producing the `(base64 image, optional text)` pair. -/
def process_file {α : Type} (pdfProc : α → String × Option String)
    (imgProc : α → String) (filename : String) (fileBytes : α)
    (byteLength : Nat) : Except FileError (String × Option String) :=
  match validate_file filename byteLength with
  | .error e => .error e
  | .ok () =>
    let ext := lowerString (pySuffix filename)
    if ext = ".pdf" then .ok (pdfProc fileBytes)
    else if ext ∈ [".png", ".jpg", ".jpeg"] then .ok ((imgProc fileBytes), none)
    else .error (.unsupportedFormat ext)

/-! GPT response parsing (`openai_client.py`,
`OpenAIClient.analyze_diagram_with_gpt5`, JSON-recovery section). -/

/-- Whitespace as stripped by `str.strip` / skipped by `json.loads`. -/
def wsp (c : Char) : Bool :=
  c = ' ' || c = '\t' || c = '\n' || c = '\r' || c = '\x0b' || c = '\x0c'

/-- Python `str.strip()` on a character list. -/
def stripChars (l : List Char) : List Char :=
  ((l.dropWhile wsp).reverse.dropWhile wsp).reverse

/-- Whether the pattern `pat` occurs in `hay` starting at index `i`. -/
def matchesAt (hay pat : List Char) (i : Nat) : Bool :=
  (hay.drop i).take pat.length = pat

/-- Python `str.find(pat, start)`: first index `≥ start` where `pat`
occurs, as an `Option`. -/
def findFrom (hay pat : List Char) (start : Nat) : Option Nat :=
  (List.range (hay.length + 1)).find? (fun i => start ≤ i && matchesAt hay pat i)

/-- Python `str.rfind(pat)`: last index where `pat` occurs. -/
def rfindSub (hay pat : List Char) : Option Nat :=
  (List.range (hay.length + 1)).foldl
    (fun acc i => if matchesAt hay pat i then some i else acc) none

/-- Decimal digit-run value (used in place of `String.toNat`). -/
def digitsToNat (ds : List Char) : Nat :=
  ds.foldl (fun a c => a * 10 + (c.toNat - 48)) 0

/-- Escape resolution inside JSON string literals (the `\uXXXX` form is
not modelled; no claim involves it). -/
def escChar (c : Char) : Option Char :=
  if c = '"' then some '"'
  else if c = '\\' then some '\\'
  else if c = '/' then some '/'
  else if c = 'b' then some '\x08'
  else if c = 'f' then some '\x0c'
  else if c = 'n' then some '\n'
  else if c = 'r' then some '\r'
  else if c = 't' then some '\t'
  else none

mutual
/-- Fueled recursive-descent JSON value parser modelling `json.loads`:
returns the value and the unconsumed remainder. -/
def parseVal : Nat → List Char → Option (Json × List Char)
  | 0, _ => none
  | fuel + 1, cs =>
    match cs.dropWhile wsp with
    | [] => none
    | '{' :: rest =>
      (match rest.dropWhile wsp with
       | '}' :: rest2 => some (.obj [], rest2)
       | _ => (parseMembers fuel rest).map (fun p => (Json.obj p.1, p.2)))
    | '[' :: rest =>
      (match rest.dropWhile wsp with
       | ']' :: rest2 => some (.arr [], rest2)
       | _ => (parseItems fuel rest).map (fun p => (Json.arr p.1, p.2)))
    | '"' :: rest => (parseStrBody fuel rest).map (fun p => (Json.str (String.mk p.1), p.2))
    | 't' :: 'r' :: 'u' :: 'e' :: rest => some (.bool true, rest)
    | 'f' :: 'a' :: 'l' :: 's' :: 'e' :: rest => some (.bool false, rest)
    | 'n' :: 'u' :: 'l' :: 'l' :: rest => some (.null, rest)
    | '-' :: rest =>
      (match rest.takeWhile Char.isDigit with
       | [] => none
       | ds => some (.num (-(Int.ofNat (digitsToNat ds))), rest.dropWhile Char.isDigit))
    | c :: rest =>
      if c.isDigit then
        some (.num (Int.ofNat (digitsToNat (c :: rest.takeWhile Char.isDigit))),
              rest.dropWhile Char.isDigit)
      else none

/-- Body of a JSON string literal after the opening quote. -/
def parseStrBody : Nat → List Char → Option (List Char × List Char)
  | 0, _ => none
  | fuel + 1, cs =>
    match cs with
    | [] => none
    | '"' :: rest => some ([], rest)
    | '\\' :: e :: rest =>
      match escChar e with
      | some c => (parseStrBody fuel rest).map (fun p => (c :: p.1, p.2))
      | none => none
    | c :: rest => (parseStrBody fuel rest).map (fun p => (c :: p.1, p.2))

/-- Members of a non-empty JSON object after the opening brace. -/
def parseMembers : Nat → List Char → Option (List (String × Json) × List Char)
  | 0, _ => none
  | fuel + 1, cs =>
    match cs.dropWhile wsp with
    | '"' :: rest =>
      match parseStrBody fuel rest with
      | none => none
      | some (key, rest2) =>
        match rest2.dropWhile wsp with
        | ':' :: rest3 =>
          match parseVal fuel rest3 with
          | none => none
          | some (v, rest4) =>
            match rest4.dropWhile wsp with
            | ',' :: rest5 =>
              (parseMembers fuel rest5).map
                (fun p => ((String.mk key, v) :: p.1, p.2))
            | '}' :: rest5 => some ([(String.mk key, v)], rest5)
            | _ => none
        | _ => none
    | _ => none

/-- Items of a non-empty JSON array after the opening bracket. -/
def parseItems : Nat → List Char → Option (List Json × List Char)
  | 0, _ => none
  | fuel + 1, cs =>
    match parseVal fuel cs with
    | none => none
    | some (v, rest) =>
      match rest.dropWhile wsp with
      | ',' :: rest2 => (parseItems fuel rest2).map (fun p => (v :: p.1, p.2))
      | ']' :: rest2 => some ([v], rest2)
      | _ => none
end

/-- Model of `json.loads`: parse one value and require only trailing
whitespace after it. -/
def jsonParse (s : String) : Option Json :=
  match parseVal (2 * s.length + 4) s.data with
  | some (j, rest) => if (rest.dropWhile wsp).isEmpty then some j else none
  | none => none

/-- The substring handed to `json.loads` by the recovery logic of
`analyze_diagram_with_gpt5`: strategy (a) when the lower-cased content
contains a json fence, strategy (b) when it contains a generic fence,
strategy (c) (the whole stripped content) otherwise. A missing closing
fence takes the remainder of the content. -/
def extractCandidate (content : String) : String :=
  let cs := content.data
  let low := cs.map Char.toLower
  match findFrom low ("```json".data) 0 with
  | some i =>
    let js := i + 7
    match findFrom cs ("```".data) js with
    | none => String.mk (stripChars (cs.drop js))
    | some je => String.mk (stripChars ((cs.take je).drop js))
  | none =>
    match findFrom cs ("```".data) 0 with
    | some i0 =>
      let js := i0 + 3
      match rfindSub cs ("```".data) with
      | none => String.mk (stripChars (cs.drop js))
      | some je =>
        if je ≤ js then String.mk (stripChars (cs.drop js))
        else String.mk (stripChars ((cs.take je).drop js))
    | none => String.mk (stripChars cs)

/-- Shallow embedding of the JSON-recovery section of
`OpenAIClient.analyze_diagram_with_gpt5` applied to the model's text
content: the branch on fence shape selects one extraction, whose parse
failure raises `ValueError` (the raw content is carried for
diagnostics). -/
def parse_gpt_content (content : String) : Except String Json :=
  let cs := content.data
  let low := cs.map Char.toLower
  match findFrom low ("```json".data) 0 with
  | some i =>
    let js := i + 7
    let jsonContent :=
      match findFrom cs ("```".data) js with
      | none => String.mk (stripChars (cs.drop js))
      | some je => String.mk (stripChars ((cs.take je).drop js))
    (match jsonParse jsonContent with
     | some d => .ok d
     | none => .error content)
  | none =>
    match findFrom cs ("```".data) 0 with
    | some i0 =>
      let js := i0 + 3
      let jsonContent :=
        match rfindSub cs ("```".data) with
        | none => String.mk (stripChars (cs.drop js))
        | some je =>
          if je ≤ js then String.mk (stripChars (cs.drop js))
          else String.mk (stripChars ((cs.take je).drop js))
      (match jsonParse jsonContent with
       | some d => .ok d
       | none => .error content)
    | none =>
      match jsonParse (String.mk (stripChars cs)) with
      | some d => .ok d
      | none => .error content

/-! Neo4j store model (`database.py`). The graph database state is the
multiset of Diagram nodes, Component nodes, CONTAINS edges and typed
component-to-component edges; Cypher MERGE is a keyed upsert, MATCH a
membership guard. `datetime()` is modelled by a logical clock. -/

/-- Persisted Diagram node and the fields SET by `store_scene_graph`. -/
structure DiagramNode where
  id : String
  title : Option String
  diagramType : Json
  sourceFilename : Json
  processingTimestamp : Json
  scale : Json
  buildingZone : Json
  floorLevel : Json
  createdAt : Nat

/-- Persisted Component node and the fields SET by `store_scene_graph`. -/
structure ComponentNode where
  id : String
  ctype : String
  name : String
  material : Json
  diameter : Json
  clength : Json
  flowDirection : Json
  posX : Int
  posY : Int
  width : Int
  height : Int

/-- Persisted typed component-to-component edge: the edge label is the
relationship tag's string value, the key is (source, target, label). -/
structure RelEdgeRec where
  source : String
  target : String
  rtype : String
  distance : Json
  angle : Json

/-- The graph-store state. -/
structure Store where
  diagrams : List DiagramNode
  components : List ComponentNode
  contains : List (String × String)
  edges : List RelEdgeRec
  clock : Nat

/-- The empty store. -/
def emptyStore : Store := { diagrams := [], components := [], contains := [], edges := [], clock := 0 }

/-- Cypher `MERGE … SET …` keyed by `key`: replace the matching record if
one exists, append otherwise. -/
def upsertBy {α K : Type} [DecidableEq K] (key : α → K) (x : α) (l : List α) : List α :=
  if key x ∈ l.map key then l.map (fun y => if key y = key x then x else y)
  else l ++ [x]

/-- Cypher `MERGE` of an unlabelled keyed edge: insert if absent. -/
def insertIfAbsent {α : Type} [DecidableEq α] (x : α) (l : List α) : List α :=
  if x ∈ l then l else l ++ [x]

/-- Key of a typed edge record. -/
def edgeKey (e : RelEdgeRec) : String × String × String := (e.source, e.target, e.rtype)

/-- Diagram-node record written by the first statement of
`store_scene_graph` (flattened metadata; `created_at` is filled from the
store clock at apply time). -/
def diagNodeOf (g : SceneGraph) : DiagramNode :=
  let fm := flattenObj g.metadata
  { id := g.diagram_id
    title := g.title
    diagramType := (jlookup fm "diagram_type").getD (.str "")
    sourceFilename := (jlookup fm "source_filename").getD (.str "")
    processingTimestamp := (jlookup fm "processing_timestamp").getD (.str "")
    scale := (jlookup fm "scale").getD (.str "")
    buildingZone := (jlookup fm "building_zone").getD (.str "")
    floorLevel := (jlookup fm "floor_level").getD (.str "")
    createdAt := 0 }

/-- Component-node record written per node (flattened properties,
flattened position and dimensions with 0 defaults). -/
def compNodeOf (n : SceneGraphNode) : ComponentNode :=
  let fp := flattenObj n.properties
  { id := n.id
    ctype := n.type.value
    name := n.name
    material := (jlookup fp "material").getD (.str "")
    diameter := (jlookup fp "diameter").getD (.str "")
    clength := (jlookup fp "length").getD (.str "")
    flowDirection := (jlookup fp "flow_direction").getD (.str "")
    posX := ((n.position.getD []).find? (fun p => p.1 = "x")).elim 0 (fun p => p.2)
    posY := ((n.position.getD []).find? (fun p => p.1 = "y")).elim 0 (fun p => p.2)
    width := ((n.dimensions.getD []).find? (fun p => p.1 = "width")).elim 0 (fun p => p.2)
    height := ((n.dimensions.getD []).find? (fun p => p.1 = "height")).elim 0 (fun p => p.2) }

/-- Typed-edge record written per relationship (flattened properties). -/
def edgeOf (r : SceneGraphRelationship) : RelEdgeRec :=
  let rp := flattenObj (r.properties.getD [])
  { source := r.source_id
    target := r.target_id
    rtype := r.type.value
    distance := (jlookup rp "distance").getD (.str "")
    angle := (jlookup rp "angle").getD (.str "") }

/-- One Cypher statement issued by `store_scene_graph`. -/
inductive WriteOp where
  | wdiagram (d : DiagramNode)
  | wcomponent (diagramId : String) (c : ComponentNode)
  | wrelationship (e : RelEdgeRec)

/-- Effect of one statement on the store. The diagram statement is a
MERGE by id plus SET (including `created_at = datetime()`); the
component statement is a MERGE by id plus SET, then a MATCH of the
diagram guarding the CONTAINS MERGE; the relationship statement MATCHes
both endpoint components before MERGEing the typed edge, so it writes
nothing when either endpoint is unknown. -/
def applyOp (st : Store) : WriteOp → Store
  | .wdiagram d =>
    { st with
      diagrams := upsertBy (fun x => x.id) { d with createdAt := st.clock } st.diagrams
      clock := st.clock + 1 }
  | .wcomponent did c =>
    let comps := upsertBy (fun x => x.id) c st.components
    if did ∈ st.diagrams.map (fun x => x.id) then
      { st with components := comps, contains := insertIfAbsent (did, c.id) st.contains }
    else
      { st with components := comps }
  | .wrelationship e =>
    if e.source ∈ st.components.map (fun x => x.id) ∧ e.target ∈ st.components.map (fun x => x.id) then
      { st with edges := upsertBy edgeKey e st.edges }
    else
      st

/-- The ordered statement sequence of one attempt of
`store_scene_graph`: the diagram upsert, then one component statement
per node, then one relationship statement per relationship. -/
def writesOf (g : SceneGraph) : List WriteOp :=
  .wdiagram (diagNodeOf g)
    :: (g.nodes.map (fun n => WriteOp.wcomponent g.diagram_id (compNodeOf n))
        ++ g.relationships.map (fun r => WriteOp.wrelationship (edgeOf r)))

/-- A fully successful attempt of the unit of work. -/
def storeGraphOnce (st : Store) (g : SceneGraph) : Store :=
  (writesOf g).foldl applyOp st

/-- A failed attempt that raised after its first `k` statements: the
statements already executed keep their effect (no rollback). -/
def applyWritesUpTo (st : Store) (g : SceneGraph) (k : Nat) : Store :=
  ((writesOf g).take k).foldl applyOp st

/-- The retry loop of `store_scene_graph` over the remaining attempt
indices. `oracle i = none` means attempt `i` completes; `oracle i = some
k` means it raises after `k` statements. Returns the reported boolean,
the final store, and the `time.sleep` delays taken (in seconds). -/
def storeRetryGo (oracle : Nat → Option Nat) (g : SceneGraph) :
    List Nat → Store → List Nat → Bool × Store × List Nat
  | [], st, sleeps => (false, st, sleeps.reverse)
  | attempt :: rest, st, sleeps =>
    match oracle attempt with
    | none => (true, storeGraphOnce st g, sleeps.reverse)
    | some k =>
      let st' := applyWritesUpTo st g k
      match rest with
      | [] => (false, st', sleeps.reverse)
      | r :: rs => storeRetryGo oracle g (r :: rs) st' ((2 ^ attempt) :: sleeps)

/-- Shallow embedding of `Neo4jDatabase.store_scene_graph`: up to
`max_retries = 3` attempts with `time.sleep(2 ** attempt)` between
failed attempts. -/
def store_scene_graph (oracle : Nat → Option Nat) (g : SceneGraph) (st : Store) :
    Bool × Store × List Nat :=
  storeRetryGo oracle g (List.range 3) st []

/-! Read queries (`database.py` and
`SceneGraphService._get_complete_scene_graph`). -/

/-- The component read-back query: CONTAINS edges of the diagram joined
to their Component nodes. -/
def getComponentsOf (st : Store) (did : String) : List ComponentNode :=
  st.contains.filterMap (fun p =>
    if p.1 = did then st.components.find? (fun c => c.id = p.2) else none)

/-- The fixed relationship-type allow-list of the read query. -/
def allowedRelTypes : List String :=
  ["CONNECTS_TO", "FLOWS_TO", "ABOVE", "BELOW", "PARALLEL_TO", "SUPPORTS", "CONTAINS"]

/-- The relationship read-back query: typed edges between two components
both CONTAINed in the diagram, restricted to the fixed type set. -/
def getRelationshipsOf (st : Store) (did : String) : List RelEdgeRec :=
  st.edges.filter (fun e =>
    decide ((did, e.source) ∈ st.contains) &&
    decide ((did, e.target) ∈ st.contains) &&
    decide (e.rtype ∈ allowedRelTypes))

/-- One row of `get_all_diagrams`. -/
structure DiagramListEntry where
  diagram_id : String
  title : Option String
  created_at : Nat
  component_count : Nat

/-- Insertion into a list kept sorted by `created_at` descending. -/
def insertByCreatedDesc (d : DiagramListEntry) : List DiagramListEntry → List DiagramListEntry
  | [] => [d]
  | x :: xs =>
    if x.created_at ≤ d.created_at then d :: x :: xs
    else x :: insertByCreatedDesc d xs

/-- Sorting by `created_at` descending (`ORDER BY d.created_at DESC`). -/
def sortByCreatedDesc (l : List DiagramListEntry) : List DiagramListEntry :=
  l.foldr insertByCreatedDesc []

/-- Shallow embedding of `Neo4jDatabase.get_all_diagrams`. -/
def get_all_diagrams (st : Store) : List DiagramListEntry :=
  sortByCreatedDesc (st.diagrams.map (fun d =>
    { diagram_id := d.id
      title := d.title
      created_at := d.createdAt
      component_count := (st.contains.filter (fun p => p.1 = d.id)).length }))

/-- Shallow embedding of `Neo4jDatabase.get_diagram_info`: `None` when
no Diagram node has the id. -/
def get_diagram_info (st : Store) (did : String) : Option (Option String × Nat) :=
  (st.diagrams.find? (fun d => d.id = did)).map (fun d =>
    (d.title, (st.contains.filter (fun p => p.1 = did)).length))

/-- The reconstructed full-graph payload of
`SceneGraphService._get_complete_scene_graph`. -/
structure GraphData where
  diagramId : String
  title : Option String
  components : List ComponentNode
  relationships : List RelEdgeRec
  totalComponents : Nat
  totalRelationships : Nat

/-- Shallow embedding of
`SceneGraphService._get_complete_scene_graph`: `None` exactly when the
diagram-info lookup finds no Diagram node. -/
def get_complete_scene_graph (st : Store) (did : String) : Option GraphData :=
  match get_diagram_info st did with
  | none => none
  | some info =>
    let comps := getComponentsOf st did
    let rels := getRelationshipsOf st did
    some { diagramId := did, title := info.1, components := comps, relationships := rels,
           totalComponents := comps.length, totalRelationships := rels.length }

/-- Failures of `SceneGraphService.query_scene_graphs`, matching the two
distinct `ValueError` messages. -/
inductive QueryError where
  | noDiagramsFound
  | diagramNotFound (did : String)
deriving DecidableEq, Repr

/-- Shallow embedding of `SceneGraphService.query_scene_graphs`. The
language-model call (`answer_question_with_graph_context`) is the
abstract parameter `llm`; both error paths return before it is used. -/
def query_scene_graphs {α : Type} (st : Store) (llm : String → GraphData → α)
    (question : String) (diagramId : Option String) : Except QueryError α :=
  match diagramId with
  | some did =>
    match get_complete_scene_graph st did with
    | none => .error (.diagramNotFound did)
    | some gd => .ok (llm question gd)
  | none =>
    match get_all_diagrams st with
    | [] => .error .noDiagramsFound
    | d :: _ =>
      match get_complete_scene_graph st d.diagram_id with
      | none => .error (.diagramNotFound d.diagram_id)
      | some gd => .ok (llm question gd)

/-! Theorems. -/

/-- C9 counterexample: a filename with a disallowed extension and a body
over the size limit is rejected as `unsupportedFormat`, not
`fileTooLarge`, although the byte length exceeds the maximum — the
extension check runs first, refuting the unconditional "FileTooLarge iff
size exceeds maximum". -/
theorem validate_file_size_iff_fails :
    validate_file "a.txt" (MAX_FILE_SIZE + 1) = .error (.unsupportedFormat ".txt")
    ∧ validate_file "a.txt" (MAX_FILE_SIZE + 1) ≠ .error (.fileTooLarge (MAX_FILE_SIZE + 1) MAX_FILE_SIZE)
    ∧ MAX_FILE_SIZE + 1 > MAX_FILE_SIZE := by
  refine ⟨by rfl, ?_, Nat.lt_succ_self _⟩
  intro h
  rw [show validate_file "a.txt" (MAX_FILE_SIZE + 1)
        = Except.error (FileError.unsupportedFormat ".txt") from rfl] at h
  exact FileError.noConfusion (Except.error.inj h)

/-- C9 (amended): `validate_file` raises `UnsupportedFormat` iff the
lower-cased suffix is not in the allow-list; it raises `FileTooLarge`
iff the suffix is allowed AND the byte length strictly exceeds the
maximum (the extension check runs first); when both checks pass —
including a length exactly at the maximum — validation succeeds, and
`process_file` proceeds to processing. -/
theorem validate_file_spec (fn : String) (n : Nat) :
    (validate_file fn n = .error (.unsupportedFormat (lowerString (pySuffix fn)))
      ↔ lowerString (pySuffix fn) ∉ ALLOWED_EXTENSIONS)
    ∧ (validate_file fn n = .error (.fileTooLarge n MAX_FILE_SIZE)
      ↔ lowerString (pySuffix fn) ∈ ALLOWED_EXTENSIONS ∧ n > MAX_FILE_SIZE)
    ∧ (validate_file fn n = .ok ()
      ↔ lowerString (pySuffix fn) ∈ ALLOWED_EXTENSIONS ∧ n ≤ MAX_FILE_SIZE)
    ∧ (∀ (α : Type) (pdfProc : α → String × Option String) (imgProc : α → String) (bytes : α),
        (process_file pdfProc imgProc fn bytes n).isOk = true
          ↔ lowerString (pySuffix fn) ∈ ALLOWED_EXTENSIONS ∧ n ≤ MAX_FILE_SIZE) := by
  unfold validate_file
  by_cases hm : lowerString (pySuffix fn) ∈ ALLOWED_EXTENSIONS
  · by_cases hs : n > MAX_FILE_SIZE
    · refine ⟨?_, ?_, ?_, ?_⟩
      · simp [hm, hs]
      · simp [hm, hs]
      · simp [hm, hs, Nat.not_le.mpr hs]
      · intro α pdfProc imgProc bytes
        unfold process_file validate_file
        simp [hm, hs, Except.isOk, Except.toBool, Nat.not_le.mpr hs]
    · refine ⟨?_, ?_, ?_, ?_⟩
      · simp [hm, hs]
      · simp [hm, hs]
      · simp [hm, hs, Nat.not_lt.mp hs]
      · intro α pdfProc imgProc bytes
        unfold process_file validate_file
        have hm' := hm
        simp only [ALLOWED_EXTENSIONS, List.mem_cons, List.mem_singleton,
          List.not_mem_nil, or_false] at hm'
        rcases hm' with h | h | h | h <;>
          simp [ALLOWED_EXTENSIONS, h, hs, Except.isOk, Except.toBool, Nat.not_lt.mp hs]
  · refine ⟨?_, ?_, ?_, ?_⟩
    · simp [hm]
    · simp [hm]
    · simp [hm]
    · intro α pdfProc imgProc bytes
      unfold process_file validate_file
      simp [hm, Except.isOk, Except.toBool]

/-- Helper: the parsing section of `analyze_diagram_with_gpt5` equals
parsing the single fence-selected candidate substring. -/
theorem parse_gpt_content_eq (content : String) :
    parse_gpt_content content =
      match jsonParse (extractCandidate content) with
      | some d => .ok d
      | none => .error content := by
  unfold parse_gpt_content extractCandidate
  rcases h1 : findFrom (List.map Char.toLower content.data) ("```json".data) 0 with _ | i
  · rcases h2 : findFrom content.data ("```".data) 0 with _ | i0
    · simp only [h1, h2]
    · rcases h3 : rfindSub content.data ("```".data) with _ | je
      · simp only [h1, h2, h3]
      · by_cases h4 : je ≤ i0 + 3 <;> simp only [h1, h2, h3, h4, if_true, if_false]
  · rcases h2 : findFrom content.data ("```".data) (i + 7) with _ | je <;> simp only [h1, h2]

/-- C4 (amended): response parsing selects exactly one extraction
strategy from the fence shape of the content — json-fenced, then
generically fenced, then raw, each tolerating a missing closing fence —
and parses only that one candidate: it fails (carrying the raw content)
if and only if the selected candidate is not valid JSON, with no
fall-through to later strategies after a failed parse. -/
theorem parse_gpt_content_strategy (content : String) :
    (parse_gpt_content content = .error content
      ↔ jsonParse (extractCandidate content) = none)
    ∧ (∀ j : Json, parse_gpt_content content = .ok j
      ↔ jsonParse (extractCandidate content) = some j) := by
  rw [parse_gpt_content_eq]
  rcases h : jsonParse (extractCandidate content) with _ | j
  · simp
  · simp

/-- C4 counterexample: the content consisting of the single JSON string
literal `"```json"` is itself valid JSON (the raw strategy would parse
it), yet parsing fails: the json-fence branch is selected by the
substring test and its extracted candidate is not valid JSON, and no
other strategy is attempted — refuting "fails iff none of the three
attempts yields valid JSON". -/
theorem parse_gpt_content_no_fallthrough :
    parse_gpt_content "\"```json\"" = .error "\"```json\""
    ∧ jsonParse "\"```json\"" = some (.str "```json") := by
  exact ⟨rfl, rfl⟩

/-! Builder lemmas. -/

/-- Skipping can only shrink the component list. -/
theorem buildNodes_length_le (gen : Nat → String) (k : Nat) (js : List Json) :
    (buildNodes gen k js).1.length ≤ js.length := by
  induction js generalizing k with
  | nil => simp [buildNodes]
  | cons j js ih =>
    cases j with
    | obj kvs =>
      simp only [buildNodes]
      rcases h : mkNodeFromObj (gen k) kvs with _ | n
      · exact le_trans (ih (k + 1)) (Nat.le_succ _)
      · simpa using ih (k + 1)
    | null => simpa [buildNodes] using le_trans (ih k) (Nat.le_succ _)
    | bool b => simpa [buildNodes] using le_trans (ih k) (Nat.le_succ _)
    | num n => simpa [buildNodes] using le_trans (ih k) (Nat.le_succ _)
    | str s => simpa [buildNodes] using le_trans (ih k) (Nat.le_succ _)
    | arr xs => simpa [buildNodes] using le_trans (ih k) (Nat.le_succ _)

/-- The uuid draw index never decreases across the component loop. -/
theorem buildNodes_snd_ge (gen : Nat → String) (k : Nat) (js : List Json) :
    k ≤ (buildNodes gen k js).2 := by
  induction js generalizing k with
  | nil => simp [buildNodes]
  | cons j js ih =>
    cases j with
    | obj kvs =>
      simp only [buildNodes]
      rcases h : mkNodeFromObj (gen k) kvs with _ | n
      · exact le_trans (Nat.le_succ _) (ih (k + 1))
      · simpa using le_trans (Nat.le_succ _) (ih (k + 1))
    | null => simpa [buildNodes] using ih k
    | bool b => simpa [buildNodes] using ih k
    | num n => simpa [buildNodes] using ih k
    | str s => simpa [buildNodes] using ih k
    | arr xs => simpa [buildNodes] using ih k

/-- When every candidate survives, nothing is skipped. -/
theorem buildNodes_all_some (gen : Nat → String) (k : Nat) (js : List Json)
    (h : ∀ j ∈ js, ∀ u, (mkNodeFromJson u j).isSome = true) :
    (buildNodes gen k js).1.length = js.length := by
  induction js generalizing k with
  | nil => simp [buildNodes]
  | cons j js ih =>
    have hj := h j (List.mem_cons_self j js)
    cases j with
    | obj kvs =>
      have hj' := hj (gen k)
      simp only [mkNodeFromJson] at hj'
      rcases hs : mkNodeFromObj (gen k) kvs with _ | n
      · rw [hs] at hj'; simp at hj'
      · simp only [buildNodes, hs]
        simpa using ih (k + 1) (fun j hjm u => h j (List.mem_cons_of_mem _ hjm) u)
    | null => simpa [mkNodeFromJson] using hj ""
    | bool b => simpa [mkNodeFromJson] using hj ""
    | num n => simpa [mkNodeFromJson] using hj ""
    | str s => simpa [mkNodeFromJson] using hj ""
    | arr xs => simpa [mkNodeFromJson] using hj ""

/-- When exactly one candidate fails construction, exactly one entry is
skipped. -/
theorem buildNodes_one_bad (gen : Nat → String) (k : Nat) (l1 l2 : List Json) (bad : Json)
    (h1 : ∀ j ∈ l1, ∀ u, (mkNodeFromJson u j).isSome = true)
    (h2 : ∀ j ∈ l2, ∀ u, (mkNodeFromJson u j).isSome = true)
    (hb : ∀ u, mkNodeFromJson u bad = none) :
    (buildNodes gen k (l1 ++ bad :: l2)).1.length = l1.length + l2.length := by
  induction l1 generalizing k with
  | nil =>
    cases bad with
    | obj kvs =>
      have hbk := hb (gen k)
      simp only [mkNodeFromJson] at hbk
      simp only [List.nil_append, buildNodes, hbk]
      simpa using buildNodes_all_some gen (k + 1) l2 h2
    | null => simpa [buildNodes] using buildNodes_all_some gen k l2 h2
    | bool b => simpa [buildNodes] using buildNodes_all_some gen k l2 h2
    | num n => simpa [buildNodes] using buildNodes_all_some gen k l2 h2
    | str s => simpa [buildNodes] using buildNodes_all_some gen k l2 h2
    | arr xs => simpa [buildNodes] using buildNodes_all_some gen k l2 h2
  | cons j l1 ih =>
    have hj := h1 j (List.mem_cons_self j l1)
    cases j with
    | obj kvs =>
      have hj' := hj (gen k)
      simp only [mkNodeFromJson] at hj'
      rcases hs : mkNodeFromObj (gen k) kvs with _ | n
      · rw [hs] at hj'; simp at hj'
      · simp only [List.cons_append, buildNodes, hs]
        have hlen := ih (k + 1) (fun j hjm u => h1 j (List.mem_cons_of_mem _ hjm) u)
        simp only [List.append_eq] at hlen ⊢
        simp only [List.length_cons]
        omega
    | null => simpa [mkNodeFromJson] using hj ""
    | bool b => simpa [mkNodeFromJson] using hj ""
    | num n => simpa [mkNodeFromJson] using hj ""
    | str s => simpa [mkNodeFromJson] using hj ""
    | arr xs => simpa [mkNodeFromJson] using hj ""

/-- Shape condition on the top-level `metadata` field under which the
build does not raise outside the per-entry guards. -/
def metaShapeOk (top : List (String × Json)) : Prop :=
  jlookup top "metadata" = none ∨ ∃ m, jlookup top "metadata" = some (.obj m)

/-- Shape condition on the top-level `title` field. -/
def titleShapeOk (top : List (String × Json)) : Prop :=
  jlookup top "title" = none ∨ (∃ s, jlookup top "title" = some (.str s))
    ∨ jlookup top "title" = some .null

/-- Successful-build characterization: with array-shaped candidate lists
and well-shaped `metadata`/`title`, the build returns a SceneGraph whose
diagram id is the first uuid draw, whose nodes are the survivors of the
component loop and whose relationships are the survivors of the
relationship loop. -/
theorem convert_ok_shape (gen : Nat → String) (k : Nat) (top : List (String × Json))
    (fn : String) (cs rs : List Json)
    (hc : jlookup top "components" = some (.arr cs))
    (hr : jlookup top "relationships" = some (.arr rs))
    (hm : metaShapeOk top) (ht : titleShapeOk top) :
    ∃ sg k2, convert_to_scene_graph gen k (.obj top) fn = .ok (sg, k2)
      ∧ sg.diagram_id = gen k
      ∧ sg.nodes = (buildNodes gen (k + 1) cs).1
      ∧ sg.relationships = rs.filterMap mkRelFromJson
      ∧ k2 = (buildNodes gen (k + 1) cs).2 + 1 := by
  simp only [convert_to_scene_graph]
  rw [hc]
  unfold convert_to_scene_graph.convertRest
  rw [hr]
  unfold convert_to_scene_graph.convertTail
  rcases hm with hm | ⟨m, hm⟩ <;> rw [hm] <;>
    unfold convert_to_scene_graph.convertFinish <;>
    rcases ht with ht | ⟨s, ht⟩ | ht <;> rw [ht] <;>
    exact ⟨_, _, rfl, rfl, rfl, rfl, rfl⟩

/-- C3: with array-shaped candidate lists and well-shaped top-level
fields, the build succeeds (it never raises because of malformed
entries), the component and relationship counts are at most the
candidate counts, and a candidate list in which exactly one entry fails
construction yields exactly N−1 components. -/
theorem build_resilient_to_malformed_entries
    (gen : Nat → String) (k : Nat) (top : List (String × Json)) (fn : String)
    (cs rs : List Json)
    (hc : jlookup top "components" = some (.arr cs))
    (hr : jlookup top "relationships" = some (.arr rs))
    (hm : metaShapeOk top) (ht : titleShapeOk top) :
    ∃ sg k2, convert_to_scene_graph gen k (.obj top) fn = .ok (sg, k2)
      ∧ sg.nodes.length ≤ cs.length
      ∧ sg.relationships.length ≤ rs.length
      ∧ ∀ l1 bad l2, cs = l1 ++ bad :: l2 →
          (∀ j ∈ l1, ∀ u, (mkNodeFromJson u j).isSome = true) →
          (∀ j ∈ l2, ∀ u, (mkNodeFromJson u j).isSome = true) →
          (∀ u, mkNodeFromJson u bad = none) →
          sg.nodes.length = l1.length + l2.length := by
  obtain ⟨sg, k2, hok, _, hnodes, hrels, _⟩ := convert_ok_shape gen k top fn cs rs hc hr hm ht
  refine ⟨sg, k2, hok, ?_, ?_, ?_⟩
  · rw [hnodes]; exact buildNodes_length_le gen (k + 1) cs
  · rw [hrels]; exact List.length_filterMap_le mkRelFromJson rs
  · intro l1 bad l2 hcs hall1 hall2 hbad
    rw [hnodes, hcs]
    exact buildNodes_one_bad gen (k + 1) l1 l2 bad hall1 hall2 hbad

/-- Helper: a successful `convertFinish` returns the threaded diagram id
and the next draw index. -/
theorem convertFinish_ok (top : List (String × Json)) (fn did : String)
    (nodes : List SceneGraphNode) (k1 : Nat) (rels : List SceneGraphRelationship)
    (gen : Nat → String) (meta0 : List (String × Json)) (sg : SceneGraph) (k2 : Nat)
    (h : convert_to_scene_graph.convertFinish top fn did nodes k1 rels gen meta0 = .ok (sg, k2)) :
    sg.diagram_id = did ∧ k2 = k1 + 1 := by
  unfold convert_to_scene_graph.convertFinish at h
  split at h <;>
    first
      | (obtain ⟨h1, h2⟩ := Prod.mk.injEq .. ▸ Except.ok.inj h
         exact ⟨by rw [← h1], h2.symm⟩)
      | simp at h

/-- Helper: a successful `convertTail` returns the threaded diagram id
and the next draw index. -/
theorem convertTail_ok (top : List (String × Json)) (fn did : String)
    (nodes : List SceneGraphNode) (k1 : Nat) (rels : List SceneGraphRelationship)
    (gen : Nat → String) (sg : SceneGraph) (k2 : Nat)
    (h : convert_to_scene_graph.convertTail top fn did nodes k1 rels gen = .ok (sg, k2)) :
    sg.diagram_id = did ∧ k2 = k1 + 1 := by
  unfold convert_to_scene_graph.convertTail at h
  split at h
  · exact convertFinish_ok _ _ _ _ _ _ _ _ _ _ h
  · exact convertFinish_ok _ _ _ _ _ _ _ _ _ _ h
  · simp at h

/-- Helper: a successful `convertRest` returns the threaded diagram id,
and strictly advances the draw index. -/
theorem convertRest_ok (gen : Nat → String) (k : Nat) (top : List (String × Json))
    (fn did : String) (comps : List Json) (sg : SceneGraph) (k2 : Nat)
    (h : convert_to_scene_graph.convertRest gen k top fn did comps = .ok (sg, k2)) :
    sg.diagram_id = did ∧ k < k2 := by
  unfold convert_to_scene_graph.convertRest at h
  have hkk : k + 1 ≤ (buildNodes gen (k + 1) comps).2 := buildNodes_snd_ge gen (k + 1) comps
  split at h
  · obtain ⟨h1, h2⟩ := convertTail_ok _ _ _ _ _ _ _ _ _ h
    exact ⟨h1, by omega⟩
  · obtain ⟨h1, h2⟩ := convertTail_ok _ _ _ _ _ _ _ _ _ h
    exact ⟨h1, by omega⟩
  · simp at h

/-- Helper: every successful build's diagram id is the first uuid draw,
and at least one draw is consumed. -/
theorem convert_ok_diagram_id (gen : Nat → String) (k : Nat) (sd : Json) (fn : String)
    (sg : SceneGraph) (k2 : Nat)
    (h : convert_to_scene_graph gen k sd fn = .ok (sg, k2)) :
    sg.diagram_id = gen k ∧ k < k2 := by
  cases sd with
  | obj top =>
    simp only [convert_to_scene_graph] at h
    split at h
    · exact convertRest_ok _ _ _ _ _ _ _ _ h
    · exact convertRest_ok _ _ _ _ _ _ _ _ h
    · simp at h
  | null => simp [convert_to_scene_graph] at h
  | bool b => simp [convert_to_scene_graph] at h
  | num n => simp [convert_to_scene_graph] at h
  | str s => simp [convert_to_scene_graph] at h
  | arr xs => simp [convert_to_scene_graph] at h

/-- C8: the diagram identifier of a built SceneGraph is the fresh uuid
drawn at the start of the build — for every candidate graph, so no
extractor-supplied identifier field can influence it — and a subsequent
build drawing from the remaining uuid supply receives a distinct
identifier whenever the supply is injective (uuid freshness). -/
theorem build_fresh_diagram_id
    (gen : Nat → String) (k : Nat) (sd : Json) (fn : String) (sg : SceneGraph) (k2 : Nat)
    (h : convert_to_scene_graph gen k sd fn = .ok (sg, k2)) :
    sg.diagram_id = gen k ∧ k < k2
      ∧ ∀ sd2 fn2 sg2 k3, convert_to_scene_graph gen k2 sd2 fn2 = .ok (sg2, k3) →
          Function.Injective gen → sg2.diagram_id ≠ sg.diagram_id := by
  obtain ⟨h1, h2⟩ := convert_ok_diagram_id gen k sd fn sg k2 h
  refine ⟨h1, h2, ?_⟩
  intro sd2 fn2 sg2 k3 h3 hinj
  obtain ⟨h4, _⟩ := convert_ok_diagram_id gen k2 sd2 fn2 sg2 k3 h3
  rw [h1, h4]
  intro heq
  exact absurd (hinj heq) (Nat.ne_of_gt h2)

/-- Shape condition on a relationship candidate's `properties` field. -/
def relPropsOk (kvs : List (String × Json)) : Bool :=
  match jlookup kvs "properties" with
  | none => true
  | some .null => true
  | some (.obj _) => true
  | some _ => false

/-- C10: absent fields are defaulted, not dropped — an absent component
tag becomes `pipe`, an absent relationship tag becomes `CONNECTS_TO`, an
absent `id` receives the freshly drawn uuid, an absent `name` becomes
"Unknown" — and, for an otherwise well-shaped component entry, the entry
is skipped exactly when its tag is present but not a member of the fixed
enumeration. -/
theorem builder_defaults (u : String) (kvs rkvs : List (String × Json)) :
    (jlookup kvs "type" = none →
      (idField u kvs).isSome = true → (nameField kvs).isSome = true →
      (propsField kvs).isSome = true → (numDictField "position" kvs).isSome = true →
      (numDictField "dimensions" kvs).isSome = true →
      ∃ n, mkNodeFromObj u kvs = some n ∧ n.type = ComponentType.pipe)
    ∧ (jlookup kvs "id" = none →
      (componentTypeFromJson ((jlookup kvs "type").getD (.str "pipe"))).isSome = true →
      (nameField kvs).isSome = true →
      (propsField kvs).isSome = true → (numDictField "position" kvs).isSome = true →
      (numDictField "dimensions" kvs).isSome = true →
      ∃ n, mkNodeFromObj u kvs = some n ∧ n.id = u)
    ∧ (jlookup kvs "name" = none →
      (componentTypeFromJson ((jlookup kvs "type").getD (.str "pipe"))).isSome = true →
      (idField u kvs).isSome = true →
      (propsField kvs).isSome = true → (numDictField "position" kvs).isSome = true →
      (numDictField "dimensions" kvs).isSome = true →
      ∃ n, mkNodeFromObj u kvs = some n ∧ n.name = "Unknown")
    ∧ ((idField u kvs).isSome = true → (nameField kvs).isSome = true →
      (propsField kvs).isSome = true → (numDictField "position" kvs).isSome = true →
      (numDictField "dimensions" kvs).isSome = true →
      (mkNodeFromObj u kvs = none ↔
        ∃ v, jlookup kvs "type" = some v ∧ componentTypeFromJson v = none))
    ∧ (jlookup rkvs "type" = none →
      (∃ s, jlookup rkvs "source_id" = some (.str s)) →
      (∃ t, jlookup rkvs "target_id" = some (.str t)) →
      relPropsOk rkvs = true →
      ∃ r, mkRelFromJson (.obj rkvs) = some r ∧ r.type = RelationshipType.connects_to) := by
  refine ⟨?_, ?_, ?_, ?_, ?_⟩
  · intro h hid hname hprops hpos hdims
    obtain ⟨i, hi⟩ := Option.isSome_iff_exists.mp hid
    obtain ⟨nm, hn⟩ := Option.isSome_iff_exists.mp hname
    obtain ⟨pr, hp⟩ := Option.isSome_iff_exists.mp hprops
    obtain ⟨po, hpo⟩ := Option.isSome_iff_exists.mp hpos
    obtain ⟨dm, hd⟩ := Option.isSome_iff_exists.mp hdims
    unfold mkNodeFromObj
    rw [h]
    simp only [Option.getD_none, hi, hn, hp, hpo, hd]
    exact ⟨_, rfl, rfl⟩
  · intro h hty hname hprops hpos hdims
    obtain ⟨ty, hty'⟩ := Option.isSome_iff_exists.mp hty
    obtain ⟨nm, hn⟩ := Option.isSome_iff_exists.mp hname
    obtain ⟨pr, hp⟩ := Option.isSome_iff_exists.mp hprops
    obtain ⟨po, hpo⟩ := Option.isSome_iff_exists.mp hpos
    obtain ⟨dm, hd⟩ := Option.isSome_iff_exists.mp hdims
    have hid : idField u kvs = some u := by unfold idField; rw [h]
    unfold mkNodeFromObj
    rw [hty', hid]
    simp only [hn, hp, hpo, hd]
    exact ⟨_, rfl, rfl⟩
  · intro h hty hid hprops hpos hdims
    obtain ⟨ty, hty'⟩ := Option.isSome_iff_exists.mp hty
    obtain ⟨i, hi⟩ := Option.isSome_iff_exists.mp hid
    obtain ⟨pr, hp⟩ := Option.isSome_iff_exists.mp hprops
    obtain ⟨po, hpo⟩ := Option.isSome_iff_exists.mp hpos
    obtain ⟨dm, hd⟩ := Option.isSome_iff_exists.mp hdims
    have hn : nameField kvs = some "Unknown" := by unfold nameField; rw [h]
    unfold mkNodeFromObj
    rw [hty', hi, hn]
    simp only [hp, hpo, hd]
    exact ⟨_, rfl, rfl⟩
  · intro hid hname hprops hpos hdims
    obtain ⟨i, hi⟩ := Option.isSome_iff_exists.mp hid
    obtain ⟨nm, hn⟩ := Option.isSome_iff_exists.mp hname
    obtain ⟨pr, hp⟩ := Option.isSome_iff_exists.mp hprops
    obtain ⟨po, hpo⟩ := Option.isSome_iff_exists.mp hpos
    obtain ⟨dm, hd⟩ := Option.isSome_iff_exists.mp hdims
    unfold mkNodeFromObj
    rcases hl : jlookup kvs "type" with _ | v
    · simp only [Option.getD_none]
      constructor
      · intro hcontra
        rw [show componentTypeFromJson (.str "pipe") = some ComponentType.pipe from rfl] at hcontra
        rw [hi, hn, hp, hpo, hd] at hcontra
        simp at hcontra
      · rintro ⟨v, hv, _⟩
        simp at hv
    · simp only [Option.getD_some]
      rcases hc : componentTypeFromJson v with _ | ty
      · simp [hc]
      · rw [hi, hn, hp, hpo, hd]
        simp [hc]
  · intro h hsrc htgt hprops
    obtain ⟨s, hs⟩ := hsrc
    obtain ⟨t, ht⟩ := htgt
    simp only [mkRelFromJson]
    rw [hs, ht, h]
    unfold relPropsOk at hprops
    rcases hp : jlookup rkvs "properties" with _ | v
    · simp only [Option.getD_none]
      exact ⟨_, rfl, rfl⟩
    · rw [hp] at hprops
      cases v with
      | null => simp only [Option.getD_none]; exact ⟨_, rfl, rfl⟩
      | obj p => simp only [Option.getD_none]; exact ⟨_, rfl, rfl⟩
      | bool b => simp at hprops
      | num n => simp at hprops
      | str s2 => simp at hprops
      | arr xs => simp at hprops

/-- C1 counterexample: a candidate graph whose single relationship
targets the id "ghost", matching no built component, still yields that
relationship in the built SceneGraph — the builder drops a relationship
only on construction failure, not on unknown endpoint ids. -/
theorem build_keeps_dangling_relationship :
    (convert_to_scene_graph (fun n => String.mk (List.replicate n 'u')) 0
        (Json.obj
          [("components", Json.arr [Json.obj
              [("id", Json.str "a"), ("type", Json.str "pipe"), ("name", Json.str "A")]]),
           ("relationships", Json.arr [Json.obj
              [("source_id", Json.str "a"), ("target_id", Json.str "ghost")]])])
        "f.png").toOption.map
      (fun p => (p.1.nodes.map (fun (n : SceneGraphNode) => n.id),
                 p.1.relationships.map
                   (fun (r : SceneGraphRelationship) => (r.source_id, r.target_id)))) =
      some (["a"], [("a", "ghost")])
    ∧ "ghost" ∉ ["a"] := by
  exact ⟨rfl, by decide⟩

/-! Store lemmas. -/

section Upsert

variable {α K : Type} [DecidableEq K] (key : α → K)

/-- Replacing by key preserves the key list. -/
theorem map_key_replace (x : α) (l : List α) :
    (l.map (fun y => if key y = key x then x else y)).map key = l.map key := by
  induction l with
  | nil => rfl
  | cons a l ih =>
    simp only [List.map_cons, ih, List.cons.injEq, and_true]
    by_cases h : key a = key x
    · simp [h]
    · simp [h]

/-- An upsert whose key is already present leaves the key list exactly
unchanged. -/
theorem upsertBy_keys_of_mem {x : α} {l : List α} (h : key x ∈ l.map key) :
    (upsertBy key x l).map key = l.map key := by
  unfold upsertBy
  rw [if_pos h]
  exact map_key_replace key x l

/-- An upsert whose key is new appends that key. -/
theorem upsertBy_keys_of_not_mem {x : α} {l : List α} (h : key x ∉ l.map key) :
    (upsertBy key x l).map key = l.map key ++ [key x] := by
  unfold upsertBy
  rw [if_neg h]
  simp

/-- The upserted key is present afterwards. -/
theorem mem_keys_upsertBy_self (x : α) (l : List α) :
    key x ∈ (upsertBy key x l).map key := by
  by_cases h : key x ∈ l.map key
  · rw [upsertBy_keys_of_mem key h]; exact h
  · rw [upsertBy_keys_of_not_mem key h]; simp

/-- Keys present before an upsert stay present. -/
theorem mem_keys_upsertBy_mono {k' : K} {l : List α} (h : k' ∈ l.map key) (x : α) :
    k' ∈ (upsertBy key x l).map key := by
  by_cases hx : key x ∈ l.map key
  · rw [upsertBy_keys_of_mem key hx]; exact h
  · rw [upsertBy_keys_of_not_mem key hx]; exact List.mem_append_left _ h

/-- Every element after an upsert is an original element or the upserted
one. -/
theorem mem_upsertBy {a x : α} {l : List α} (h : a ∈ upsertBy key x l) :
    a ∈ l ∨ a = x := by
  unfold upsertBy at h
  split at h
  · obtain ⟨y, hy, hz⟩ := List.mem_map.mp h
    by_cases hk : key y = key x
    · right; rw [if_pos hk] at hz; exact hz.symm
    · left; rw [if_neg hk] at hz; exact hz ▸ hy
  · rcases List.mem_append.mp h with h' | h'
    · exact Or.inl h'
    · right; simpa using h'

end Upsert

/-- An insert of a present element is a no-op. -/
theorem insertIfAbsent_of_mem {α : Type} [DecidableEq α] {x : α} {l : List α} (h : x ∈ l) :
    insertIfAbsent x l = l := by
  unfold insertIfAbsent; rw [if_pos h]

/-- An insert of an absent element appends it. -/
theorem insertIfAbsent_of_not_mem {α : Type} [DecidableEq α] {x : α} {l : List α} (h : x ∉ l) :
    insertIfAbsent x l = l ++ [x] := by
  unfold insertIfAbsent; rw [if_neg h]

/-- The inserted element is present afterwards. -/
theorem mem_insertIfAbsent_self {α : Type} [DecidableEq α] (x : α) (l : List α) :
    x ∈ insertIfAbsent x l := by
  unfold insertIfAbsent
  split
  · assumption
  · simp

/-- Elements present before an insert stay present. -/
theorem mem_insertIfAbsent_mono {α : Type} [DecidableEq α] {a : α} {l : List α}
    (h : a ∈ l) (x : α) : a ∈ insertIfAbsent x l := by
  unfold insertIfAbsent
  split
  · exact h
  · exact List.mem_append_left _ h

/-- Diagram-id key list of a store. -/
def diagKeys (st : Store) : List String := st.diagrams.map (fun d => d.id)

/-- Component-id key list of a store. -/
def compKeys (st : Store) : List String := st.components.map (fun c => c.id)

/-- Edge key list of a store. -/
def edgeKeys (st : Store) : List (String × String × String) := st.edges.map edgeKey

/-- The component phase of one attempt. -/
def applyComps (did : String) (st : Store) (ns : List SceneGraphNode) : Store :=
  ns.foldl (fun s n => applyOp s (.wcomponent did (compNodeOf n))) st

/-- The relationship phase of one attempt. -/
def applyRels (st : Store) (rs : List SceneGraphRelationship) : Store :=
  rs.foldl (fun s r => applyOp s (.wrelationship (edgeOf r))) st

/-- One attempt decomposes into the diagram write, the component phase
and the relationship phase. -/
theorem storeGraphOnce_phases (st : Store) (g : SceneGraph) :
    storeGraphOnce st g =
      applyRels (applyComps g.diagram_id
        (applyOp st (.wdiagram (diagNodeOf g))) g.nodes) g.relationships := by
  unfold storeGraphOnce writesOf applyComps applyRels
  rw [List.foldl_cons, List.foldl_append, List.foldl_map, List.foldl_map]

/-- A component statement never touches diagrams, edges or the clock. -/
theorem applyOp_wcomponent_facets (st : Store) (did : String) (c : ComponentNode) :
    (applyOp st (.wcomponent did c)).diagrams = st.diagrams
    ∧ (applyOp st (.wcomponent did c)).edges = st.edges
    ∧ (applyOp st (.wcomponent did c)).clock = st.clock
    ∧ (applyOp st (.wcomponent did c)).components = upsertBy (fun x => x.id) c st.components
    ∧ (applyOp st (.wcomponent did c)).contains =
        (if did ∈ diagKeys st then insertIfAbsent (did, c.id) st.contains else st.contains) := by
  simp only [applyOp, diagKeys]
  split <;> simp_all

/-- A relationship statement only touches edges, and only when both
endpoints are present components. -/
theorem applyOp_wrelationship_facets (st : Store) (e : RelEdgeRec) :
    (applyOp st (.wrelationship e)).diagrams = st.diagrams
    ∧ (applyOp st (.wrelationship e)).components = st.components
    ∧ (applyOp st (.wrelationship e)).contains = st.contains
    ∧ (applyOp st (.wrelationship e)).clock = st.clock
    ∧ (applyOp st (.wrelationship e)).edges =
        (if e.source ∈ compKeys st ∧ e.target ∈ compKeys st
         then upsertBy edgeKey e st.edges else st.edges) := by
  simp only [applyOp, compKeys]
  split <;> simp_all

/-- The diagram statement only touches diagrams and the clock. -/
theorem applyOp_wdiagram_facets (st : Store) (d : DiagramNode) :
    (applyOp st (.wdiagram d)).components = st.components
    ∧ (applyOp st (.wdiagram d)).contains = st.contains
    ∧ (applyOp st (.wdiagram d)).edges = st.edges
    ∧ (applyOp st (.wdiagram d)).diagrams =
        upsertBy (fun x => x.id) { d with createdAt := st.clock } st.diagrams := by
  simp [applyOp]

/-- The component phase never touches diagrams or edges. -/
theorem applyComps_facets (did : String) (ns : List SceneGraphNode) (st : Store) :
    (applyComps did st ns).diagrams = st.diagrams
    ∧ (applyComps did st ns).edges = st.edges := by
  induction ns generalizing st with
  | nil => exact ⟨rfl, rfl⟩
  | cons n ns ih =>
    unfold applyComps
    rw [List.foldl_cons]
    obtain ⟨ihd, ihe⟩ := ih (applyOp st (.wcomponent did (compNodeOf n)))
    obtain ⟨hd, he, _, _, _⟩ := applyOp_wcomponent_facets st did (compNodeOf n)
    exact ⟨by rw [applyComps] at ihd; rw [ihd, hd], by rw [applyComps] at ihe; rw [ihe, he]⟩

/-- The relationship phase never touches diagrams, components or
CONTAINS edges. -/
theorem applyRels_facets (rs : List SceneGraphRelationship) (st : Store) :
    (applyRels st rs).diagrams = st.diagrams
    ∧ (applyRels st rs).components = st.components
    ∧ (applyRels st rs).contains = st.contains := by
  induction rs generalizing st with
  | nil => exact ⟨rfl, rfl, rfl⟩
  | cons r rs ih =>
    unfold applyRels
    rw [List.foldl_cons]
    obtain ⟨ihd, ihc, ihk⟩ := ih (applyOp st (.wrelationship (edgeOf r)))
    obtain ⟨hd, hc, hk, _, _⟩ := applyOp_wrelationship_facets st (edgeOf r)
    refine ⟨?_, ?_, ?_⟩ <;> rw [applyRels] at ihd ihc ihk
    · rw [ihd, hd]
    · rw [ihc, hc]
    · rw [ihk, hk]

/-- Unfolding of one component-phase step. -/
theorem applyComps_cons (did : String) (st : Store) (n : SceneGraphNode)
    (ns : List SceneGraphNode) :
    applyComps did st (n :: ns) =
      applyComps did (applyOp st (.wcomponent did (compNodeOf n))) ns := by
  unfold applyComps
  rw [List.foldl_cons]

/-- Unfolding of one relationship-phase step. -/
theorem applyRels_cons (st : Store) (r : SceneGraphRelationship)
    (rs : List SceneGraphRelationship) :
    applyRels st (r :: rs) =
      applyRels (applyOp st (.wrelationship (edgeOf r))) rs := by
  unfold applyRels
  rw [List.foldl_cons]

/-- The component record keeps the node's id. -/
theorem compNodeOf_id (n : SceneGraphNode) : (compNodeOf n).id = n.id := rfl

/-- The edge record keeps the relationship's endpoints. -/
theorem edgeOf_ends (r : SceneGraphRelationship) :
    (edgeOf r).source = r.source_id ∧ (edgeOf r).target = r.target_id := ⟨rfl, rfl⟩

/-- Component keys are monotone across the component phase. -/
theorem mem_compKeys_applyComps_mono {k' : String} {st : Store}
    (h : k' ∈ compKeys st) (did : String) (ns : List SceneGraphNode) :
    k' ∈ compKeys (applyComps did st ns) := by
  induction ns generalizing st with
  | nil => exact h
  | cons n ns ih =>
    rw [applyComps_cons]
    apply ih
    obtain ⟨_, _, _, hc, _⟩ := applyOp_wcomponent_facets st did (compNodeOf n)
    unfold compKeys
    rw [hc]
    exact mem_keys_upsertBy_mono _ h _

/-- Every written node id is a component key after the component phase. -/
theorem mem_compKeys_applyComps_self {n : SceneGraphNode} {ns : List SceneGraphNode}
    (h : n ∈ ns) (did : String) (st : Store) :
    n.id ∈ compKeys (applyComps did st ns) := by
  induction ns generalizing st with
  | nil => cases h
  | cons m ns ih =>
    rw [applyComps_cons]
    rcases List.mem_cons.mp h with rfl | hmem
    · apply mem_compKeys_applyComps_mono _ did ns
      obtain ⟨_, _, _, hc, _⟩ := applyOp_wcomponent_facets st did (compNodeOf n)
      unfold compKeys
      rw [hc]
      have := mem_keys_upsertBy_self (fun x : ComponentNode => x.id) (compNodeOf n) st.components
      simpa [compNodeOf_id] using this
    · exact ih hmem _

/-- CONTAINS pairs are monotone across the component phase. -/
theorem mem_contains_applyComps_mono {p : String × String} {st : Store}
    (h : p ∈ st.contains) (did : String) (ns : List SceneGraphNode) :
    p ∈ (applyComps did st ns).contains := by
  induction ns generalizing st with
  | nil => exact h
  | cons n ns ih =>
    rw [applyComps_cons]
    apply ih
    obtain ⟨_, _, _, _, hk⟩ := applyOp_wcomponent_facets st did (compNodeOf n)
    rw [hk]
    split
    · exact mem_insertIfAbsent_mono h _
    · exact h

/-- Diagram keys are untouched by the component phase. -/
theorem diagKeys_applyComps (did : String) (st : Store) (ns : List SceneGraphNode) :
    diagKeys (applyComps did st ns) = diagKeys st := by
  unfold diagKeys
  rw [(applyComps_facets did ns st).1]

/-- When the diagram is present, every written node contributes its
CONTAINS pair. -/
theorem mem_contains_applyComps_self {n : SceneGraphNode} {ns : List SceneGraphNode}
    (h : n ∈ ns) (did : String) (st : Store) (hd : did ∈ diagKeys st) :
    (did, n.id) ∈ (applyComps did st ns).contains := by
  induction ns generalizing st with
  | nil => cases h
  | cons m ns ih =>
    rw [applyComps_cons]
    obtain ⟨hdg, _, _, _, hk⟩ := applyOp_wcomponent_facets st did (compNodeOf m)
    rcases List.mem_cons.mp h with rfl | hmem
    · apply mem_contains_applyComps_mono _ did ns
      rw [hk, if_pos hd]
      have := mem_insertIfAbsent_self (did, (compNodeOf n).id) st.contains
      simpa [compNodeOf_id] using this
    · exact ih hmem _ (by unfold diagKeys; rw [hdg]; exact hd)

/-- Stability of the component phase: when the diagram is present and
every node id and CONTAINS pair is already stored, the phase changes
neither the component key list nor the CONTAINS list. -/
theorem applyComps_stable {did : String} {st : Store} {ns : List SceneGraphNode}
    (hd : did ∈ diagKeys st)
    (h1 : ∀ n ∈ ns, n.id ∈ compKeys st)
    (h2 : ∀ n ∈ ns, (did, n.id) ∈ st.contains) :
    compKeys (applyComps did st ns) = compKeys st
      ∧ (applyComps did st ns).contains = st.contains := by
  induction ns generalizing st with
  | nil => exact ⟨rfl, rfl⟩
  | cons n ns ih =>
    rw [applyComps_cons]
    obtain ⟨hdg, _, _, hc, hk⟩ := applyOp_wcomponent_facets st did (compNodeOf n)
    have hck : compKeys (applyOp st (.wcomponent did (compNodeOf n))) = compKeys st := by
      unfold compKeys
      rw [hc]
      have hmem : (fun x : ComponentNode => x.id) (compNodeOf n) ∈
          st.components.map (fun x => x.id) := by
        show (compNodeOf n).id ∈ st.components.map (fun x => x.id)
        rw [compNodeOf_id]
        exact h1 n (List.mem_cons_self n ns)
      exact upsertBy_keys_of_mem _ hmem
    have hkk : (applyOp st (.wcomponent did (compNodeOf n))).contains = st.contains := by
      rw [hk, if_pos hd]
      exact insertIfAbsent_of_mem (h2 n (List.mem_cons_self n ns))
    have hdd : did ∈ diagKeys (applyOp st (.wcomponent did (compNodeOf n))) := by
      unfold diagKeys; rw [hdg]; exact hd
    obtain ⟨ih1, ih2⟩ := ih hdd
      (fun m hm => by rw [hck]; exact h1 m (List.mem_cons_of_mem _ hm))
      (fun m hm => by rw [hkk]; exact h2 m (List.mem_cons_of_mem _ hm))
    exact ⟨by rw [ih1, hck], by rw [ih2, hkk]⟩

/-- Fresh-diagram characterization of the component phase: with the
diagram present, pairwise-distinct node ids and no pre-existing pair,
the CONTAINS list gains exactly one ordered pair per node. -/
theorem applyComps_contains_fresh {did : String} {st : Store} {ns : List SceneGraphNode}
    (hd : did ∈ diagKeys st)
    (hnd : (ns.map (fun n => n.id)).Nodup)
    (hf : ∀ n ∈ ns, (did, n.id) ∉ st.contains) :
    (applyComps did st ns).contains = st.contains ++ ns.map (fun n => (did, n.id)) := by
  induction ns generalizing st with
  | nil => simp [applyComps]
  | cons n ns ih =>
    rw [applyComps_cons]
    obtain ⟨hdg, _, _, _, hk⟩ := applyOp_wcomponent_facets st did (compNodeOf n)
    have hkk : (applyOp st (.wcomponent did (compNodeOf n))).contains
        = st.contains ++ [(did, n.id)] := by
      rw [hk, if_pos hd]
      have := insertIfAbsent_of_not_mem (x := (did, (compNodeOf n).id))
        (l := st.contains) (by simpa [compNodeOf_id] using hf n (List.mem_cons_self n ns))
      simpa [compNodeOf_id] using this
    have hdd : did ∈ diagKeys (applyOp st (.wcomponent did (compNodeOf n))) := by
      unfold diagKeys; rw [hdg]; exact hd
    have hnd' : (ns.map (fun n => n.id)).Nodup := (List.nodup_cons.mp hnd).2
    have hne : n.id ∉ ns.map (fun n => n.id) := (List.nodup_cons.mp hnd).1
    have hf' : ∀ m ∈ ns, (did, m.id) ∉ (applyOp st (.wcomponent did (compNodeOf n))).contains := by
      intro m hm
      rw [hkk]
      intro hcontra
      rcases List.mem_append.mp hcontra with hin | hin
      · exact hf m (List.mem_cons_of_mem _ hm) hin
      · have : m.id = n.id := by simpa using (Prod.mk.injEq .. ▸ List.mem_singleton.mp hin).2
        exact hne (this ▸ List.mem_map_of_mem (fun n => n.id) hm)
    rw [ih hdd hnd' hf', hkk]
    simp

/-- Edge keys are monotone across the relationship phase. -/
theorem mem_edgeKeys_applyRels_mono {ek : String × String × String} {st : Store}
    (h : ek ∈ edgeKeys st) (rs : List SceneGraphRelationship) :
    ek ∈ edgeKeys (applyRels st rs) := by
  induction rs generalizing st with
  | nil => exact h
  | cons r rs ih =>
    rw [applyRels_cons]
    apply ih
    obtain ⟨_, _, _, _, he⟩ := applyOp_wrelationship_facets st (edgeOf r)
    unfold edgeKeys
    rw [he]
    split
    · exact mem_keys_upsertBy_mono _ h _
    · exact h

/-- A relationship whose endpoints are stored components has its edge
key present after the relationship phase. -/
theorem mem_edgeKeys_applyRels_self {r : SceneGraphRelationship}
    {rs : List SceneGraphRelationship} (h : r ∈ rs) (st : Store)
    (hg : (edgeOf r).source ∈ compKeys st ∧ (edgeOf r).target ∈ compKeys st) :
    edgeKey (edgeOf r) ∈ edgeKeys (applyRels st rs) := by
  induction rs generalizing st with
  | nil => cases h
  | cons q rs ih =>
    rw [applyRels_cons]
    obtain ⟨_, hcm, _, _, he⟩ := applyOp_wrelationship_facets st (edgeOf q)
    rcases List.mem_cons.mp h with rfl | hmem
    · apply mem_edgeKeys_applyRels_mono _ rs
      unfold edgeKeys
      rw [he, if_pos hg]
      exact mem_keys_upsertBy_self _ _ _
    · apply ih hmem
      constructor
      · unfold compKeys; rw [hcm]; exact hg.1
      · unfold compKeys; rw [hcm]; exact hg.2

/-- Stability of the relationship phase: when every matched relationship
already has its edge key stored, the phase leaves the edge key list
exactly unchanged. -/
theorem applyRels_stable {st : Store} {rs : List SceneGraphRelationship}
    (h : ∀ r ∈ rs, ((edgeOf r).source ∈ compKeys st ∧ (edgeOf r).target ∈ compKeys st) →
      edgeKey (edgeOf r) ∈ edgeKeys st) :
    edgeKeys (applyRels st rs) = edgeKeys st := by
  induction rs generalizing st with
  | nil => rfl
  | cons r rs ih =>
    rw [applyRels_cons]
    obtain ⟨_, hcm, _, _, he⟩ := applyOp_wrelationship_facets st (edgeOf r)
    have hek : edgeKeys (applyOp st (.wrelationship (edgeOf r))) = edgeKeys st := by
      unfold edgeKeys
      rw [he]
      split
      · exact upsertBy_keys_of_mem _ (h r (List.mem_cons_self r rs) (by assumption))
      · rfl
    have hcm' : compKeys (applyOp st (.wrelationship (edgeOf r))) = compKeys st := by
      unfold compKeys; rw [hcm]
    rw [ih ?_, hek]
    intro q hq hgq
    rw [hek]
    apply h q (List.mem_cons_of_mem _ hq)
    rw [hcm'] at hgq
    exact hgq

/-- The diagram record keeps the graph's diagram id. -/
theorem diagNodeOf_id (g : SceneGraph) : (diagNodeOf g).id = g.diagram_id := rfl

/-- With the always-succeeding attempt oracle, `store_scene_graph` is a
single completed attempt, reports success and never sleeps. -/
theorem store_ok_oracle (g : SceneGraph) (st : Store) :
    store_scene_graph (fun _ => none) g st = (true, storeGraphOnce st g, []) := rfl

/-- Facts established by one completed attempt: the diagram key, all
node keys, all CONTAINS pairs, and the edge key of every matched
relationship are present afterwards. -/
theorem storeGraphOnce_post (st : Store) (g : SceneGraph) :
    g.diagram_id ∈ diagKeys (storeGraphOnce st g)
    ∧ (∀ n ∈ g.nodes, n.id ∈ compKeys (storeGraphOnce st g))
    ∧ (∀ n ∈ g.nodes, (g.diagram_id, n.id) ∈ (storeGraphOnce st g).contains)
    ∧ (∀ r ∈ g.relationships,
        ((edgeOf r).source ∈ compKeys (storeGraphOnce st g)
          ∧ (edgeOf r).target ∈ compKeys (storeGraphOnce st g)) →
        edgeKey (edgeOf r) ∈ edgeKeys (storeGraphOnce st g)) := by
  rw [storeGraphOnce_phases]
  set A := applyOp st (.wdiagram (diagNodeOf g)) with hA
  set B := applyComps g.diagram_id A g.nodes with hB
  obtain ⟨rd, rc, rk⟩ := applyRels_facets g.relationships B
  have hAd : g.diagram_id ∈ diagKeys A := by
    obtain ⟨_, _, _, hdg⟩ := applyOp_wdiagram_facets st (diagNodeOf g)
    unfold diagKeys
    rw [hA, hdg]
    have := mem_keys_upsertBy_self (fun x : DiagramNode => x.id)
      { diagNodeOf g with createdAt := st.clock } st.diagrams
    simpa using this
  have hBd : g.diagram_id ∈ diagKeys B := by
    rw [hB, diagKeys_applyComps]; exact hAd
  refine ⟨?_, ?_, ?_, ?_⟩
  · unfold diagKeys
    rw [rd]
    exact hBd
  · intro n hn
    unfold compKeys
    rw [rc]
    exact mem_compKeys_applyComps_self hn _ _
  · intro n hn
    rw [rk]
    exact mem_contains_applyComps_self hn _ _ hAd
  · intro r hr hg
    apply mem_edgeKeys_applyRels_self hr
    constructor
    · unfold compKeys at hg ⊢; rw [rc] at hg; exact hg.1
    · unfold compKeys at hg ⊢; rw [rc] at hg; exact hg.2

/-- Idempotence of the unit of work at the key level: a second completed
attempt with the same SceneGraph changes no key list and no CONTAINS
edge. -/
theorem storeGraphOnce_twice (st : Store) (g : SceneGraph) :
    diagKeys (storeGraphOnce (storeGraphOnce st g) g) = diagKeys (storeGraphOnce st g)
    ∧ compKeys (storeGraphOnce (storeGraphOnce st g) g) = compKeys (storeGraphOnce st g)
    ∧ (storeGraphOnce (storeGraphOnce st g) g).contains = (storeGraphOnce st g).contains
    ∧ edgeKeys (storeGraphOnce (storeGraphOnce st g) g) = edgeKeys (storeGraphOnce st g) := by
  obtain ⟨p1, p2, p3, p4⟩ := storeGraphOnce_post st g
  obtain ⟨a2c, a2k, a2e, a2d⟩ := applyOp_wdiagram_facets (storeGraphOnce st g) (diagNodeOf g)
  have hA2d : diagKeys (applyOp (storeGraphOnce st g) (.wdiagram (diagNodeOf g)))
      = diagKeys (storeGraphOnce st g) := by
    unfold diagKeys
    rw [a2d]
    have hmem : (fun x : DiagramNode => x.id)
        { diagNodeOf g with createdAt := (storeGraphOnce st g).clock }
        ∈ (storeGraphOnce st g).diagrams.map (fun x => x.id) := by
      show (diagNodeOf g).id ∈ (storeGraphOnce st g).diagrams.map (fun x => x.id)
      rw [diagNodeOf_id]
      exact p1
    exact upsertBy_keys_of_mem _ hmem
  have hA2c : compKeys (applyOp (storeGraphOnce st g) (.wdiagram (diagNodeOf g)))
      = compKeys (storeGraphOnce st g) := by unfold compKeys; rw [a2c]
  have hA2k : (applyOp (storeGraphOnce st g) (.wdiagram (diagNodeOf g))).contains
      = (storeGraphOnce st g).contains := a2k
  have hA2e : edgeKeys (applyOp (storeGraphOnce st g) (.wdiagram (diagNodeOf g)))
      = edgeKeys (storeGraphOnce st g) := by unfold edgeKeys; rw [a2e]
  obtain ⟨hB2c, hB2k⟩ := @applyComps_stable g.diagram_id
    (applyOp (storeGraphOnce st g) (.wdiagram (diagNodeOf g))) g.nodes
    (by rw [hA2d]; exact p1)
    (fun n hn => by rw [hA2c]; exact p2 n hn)
    (fun n hn => by rw [hA2k]; exact p3 n hn)
  obtain ⟨b2diag, b2edge⟩ := applyComps_facets g.diagram_id g.nodes
    (applyOp (storeGraphOnce st g) (.wdiagram (diagNodeOf g)))
  obtain ⟨r2d, r2c, r2k⟩ := applyRels_facets g.relationships
    (applyComps g.diagram_id (applyOp (storeGraphOnce st g) (.wdiagram (diagNodeOf g))) g.nodes)
  have hB2e : edgeKeys (applyComps g.diagram_id
      (applyOp (storeGraphOnce st g) (.wdiagram (diagNodeOf g))) g.nodes)
      = edgeKeys (storeGraphOnce st g) := by
    unfold edgeKeys
    rw [b2edge, a2e]
  rw [storeGraphOnce_phases (storeGraphOnce st g) g]
  refine ⟨?_, ?_, ?_, ?_⟩
  · unfold diagKeys
    rw [r2d, b2diag]
    exact hA2d
  · unfold compKeys
    rw [r2c]
    unfold compKeys at hB2c hA2c
    rw [hB2c, hA2c]
  · rw [r2k, hB2k, hA2k]
  · rw [applyRels_stable ?_, hB2e]
    intro r hr hg
    rw [hB2e]
    apply p4 r hr
    rw [hB2c, hA2c] at hg
    exact hg

/-- C2: storing the same SceneGraph twice (with succeeding attempts)
leaves the diagram count for its id, the total diagram, component,
CONTAINS-edge and relationship counts unchanged after the second call —
every write is an upsert keyed by id. -/
theorem store_scene_graph_idempotent (g : SceneGraph) (st : Store) :
    ((diagKeys ((store_scene_graph (fun _ => none) g
          ((store_scene_graph (fun _ => none) g st).2.1)).2.1)).count g.diagram_id
        = (diagKeys ((store_scene_graph (fun _ => none) g st).2.1)).count g.diagram_id)
    ∧ ((store_scene_graph (fun _ => none) g
          ((store_scene_graph (fun _ => none) g st).2.1)).2.1).diagrams.length
        = ((store_scene_graph (fun _ => none) g st).2.1).diagrams.length
    ∧ ((store_scene_graph (fun _ => none) g
          ((store_scene_graph (fun _ => none) g st).2.1)).2.1).components.length
        = ((store_scene_graph (fun _ => none) g st).2.1).components.length
    ∧ ((store_scene_graph (fun _ => none) g
          ((store_scene_graph (fun _ => none) g st).2.1)).2.1).contains.length
        = ((store_scene_graph (fun _ => none) g st).2.1).contains.length
    ∧ ((store_scene_graph (fun _ => none) g
          ((store_scene_graph (fun _ => none) g st).2.1)).2.1).edges.length
        = ((store_scene_graph (fun _ => none) g st).2.1).edges.length := by
  rw [store_ok_oracle, store_ok_oracle]
  obtain ⟨h1, h2, h3, h4⟩ := storeGraphOnce_twice st g
  refine ⟨by rw [h1], ?_, ?_, by rw [h3], ?_⟩
  · have := congrArg List.length h1
    simpa [diagKeys] using this
  · have := congrArg List.length h2
    simpa [compKeys] using this
  · have := congrArg List.length h4
    simpa [edgeKeys] using this

/-- A present component key is found by the read query's join, with the
matching id. -/
theorem find?_comp_key {k : String} {l : List ComponentNode}
    (h : k ∈ l.map (fun c => c.id)) :
    ∃ c, l.find? (fun c => c.id = k) = some c ∧ c.id = k := by
  induction l with
  | nil => simp at h
  | cons c0 l ih =>
    by_cases h0 : c0.id = k
    · refine ⟨c0, ?_, h0⟩
      rw [List.find?_cons]
      simp [h0]
    · have hk : k ∈ l.map (fun c => c.id) := by
        rcases List.mem_cons.mp h with h' | h'
        · exact absurd h'.symm h0
        · exact h'
      obtain ⟨c, hc, hc'⟩ := ih hk
      refine ⟨c, ?_, hc'⟩
      rw [List.find?_cons]
      simp only [h0, decide_False]
      exact hc

/-- CONTAINS pairs of other diagrams contribute nothing to the
component read-back. -/
theorem filterMap_foreign_contains (did : String) (comps : List ComponentNode)
    (l : List (String × String)) (hf : ∀ p ∈ l, p.1 ≠ did) :
    l.filterMap (fun p => if p.1 = did then comps.find? (fun c => c.id = p.2) else none)
      = [] := by
  induction l with
  | nil => rfl
  | cons p l ih =>
    rw [List.filterMap_cons, if_neg (hf p (List.mem_cons_self p l))]
    exact ih (fun q hq => hf q (List.mem_cons_of_mem _ hq))

/-- The freshly written CONTAINS pairs read back exactly the written
node ids, in order. -/
theorem filterMap_own_contains (did : String) (comps : List ComponentNode)
    (ns : List SceneGraphNode) (hmem : ∀ n ∈ ns, n.id ∈ comps.map (fun c => c.id)) :
    ((ns.map (fun n => (did, n.id))).filterMap
        (fun p => if p.1 = did then comps.find? (fun c => c.id = p.2) else none)).map
      (fun c => c.id) = ns.map (fun n => n.id) := by
  induction ns with
  | nil => rfl
  | cons n ns ih =>
    rw [List.map_cons, List.filterMap_cons, if_pos rfl]
    obtain ⟨c, hc, hc'⟩ := find?_comp_key (hmem n (List.mem_cons_self n ns))
    rw [hc, List.map_cons, hc']
    rw [ih (fun m hm => hmem m (List.mem_cons_of_mem _ hm)), List.map_cons]

/-- C6: for a SceneGraph with pairwise-distinct component ids whose
diagram id has no pre-existing CONTAINS edges in the store, one
successful `store_scene_graph` followed by the component read-back query
for that diagram id returns exactly the graph's own component ids. -/
theorem store_roundtrip_components (g : SceneGraph) (st : Store)
    (hnd : (g.nodes.map (fun n => n.id)).Nodup)
    (hfresh : ∀ p ∈ st.contains, p.1 ≠ g.diagram_id) :
    (getComponentsOf ((store_scene_graph (fun _ => none) g st).2.1) g.diagram_id).map
        (fun c => c.id)
      = g.nodes.map (fun n => n.id) := by
  rw [store_ok_oracle]
  obtain ⟨p1, p2, _, _⟩ := storeGraphOnce_post st g
  obtain ⟨a1c, a1k, _, _⟩ := applyOp_wdiagram_facets st (diagNodeOf g)
  have hAd : g.diagram_id ∈ diagKeys (applyOp st (.wdiagram (diagNodeOf g))) := by
    obtain ⟨_, _, _, a1d⟩ := applyOp_wdiagram_facets st (diagNodeOf g)
    unfold diagKeys
    rw [a1d]
    have := mem_keys_upsertBy_self (fun x : DiagramNode => x.id)
      { diagNodeOf g with createdAt := st.clock } st.diagrams
    simpa using this
  have hcontains : (storeGraphOnce st g).contains
      = st.contains ++ g.nodes.map (fun n => (g.diagram_id, n.id)) := by
    rw [storeGraphOnce_phases]
    obtain ⟨_, _, rk⟩ := applyRels_facets g.relationships
      (applyComps g.diagram_id (applyOp st (.wdiagram (diagNodeOf g))) g.nodes)
    rw [rk]
    rw [applyComps_contains_fresh hAd hnd
      (fun n hn hin => hfresh _ (a1k ▸ hin) rfl), a1k]
  unfold getComponentsOf
  rw [hcontains, List.filterMap_append]
  rw [filterMap_foreign_contains _ _ _ hfresh]
  rw [List.nil_append]
  exact filterMap_own_contains _ _ _ (fun n hn => p2 n hn)

/-- C5: `store_scene_graph` makes at most three attempts (indices 0, 1,
2): it returns true exactly when one of them completes, sleeps
`2 ** attempt` seconds after each non-final failed attempt (delays 1
then 2 — doubling), returns true when the first two attempts fail and
the third completes, and returns false with the three partial write
prefixes left in place (no rollback) when all three fail. -/
theorem store_scene_graph_retry (oracle : Nat → Option Nat) (g : SceneGraph) (st : Store) :
    ((store_scene_graph oracle g st).1 = true
      ↔ (oracle 0 = none ∨ oracle 1 = none ∨ oracle 2 = none))
    ∧ ((store_scene_graph oracle g st).2.2 =
        if oracle 0 = none then [] else if oracle 1 = none then [1] else [1, 2])
    ∧ (∀ k0 k1, oracle 0 = some k0 → oracle 1 = some k1 → oracle 2 = none →
        store_scene_graph oracle g st =
          (true, storeGraphOnce (applyWritesUpTo (applyWritesUpTo st g k0) g k1) g, [1, 2]))
    ∧ (∀ k0 k1 k2, oracle 0 = some k0 → oracle 1 = some k1 → oracle 2 = some k2 →
        store_scene_graph oracle g st =
          (false, applyWritesUpTo (applyWritesUpTo (applyWritesUpTo st g k0) g k1) g k2,
           [1, 2])) := by
  have hr : List.range 3 = [0, 1, 2] := rfl
  rcases h0 : oracle 0 with _ | k0
  · refine ⟨?_, ?_, ?_, ?_⟩
    · simp [store_scene_graph, hr, storeRetryGo, h0]
    · simp [store_scene_graph, hr, storeRetryGo, h0]
    · intro k0 k1 hk0; cases hk0
    · intro k0 k1 k2 hk0; cases hk0
  · rcases h1 : oracle 1 with _ | k1
    · refine ⟨?_, ?_, ?_, ?_⟩
      · simp [store_scene_graph, hr, storeRetryGo, h0, h1]
      · simp [store_scene_graph, hr, storeRetryGo, h0, h1]
      · intro a b hk0 hk1; cases hk1
      · intro a b c hk0 hk1; cases hk1
    · rcases h2 : oracle 2 with _ | k2
      · refine ⟨?_, ?_, ?_, ?_⟩
        · simp [store_scene_graph, hr, storeRetryGo, h0, h1, h2]
        · simp [store_scene_graph, hr, storeRetryGo, h0, h1, h2]
        · intro a b hk0 hk1 _
          cases hk0
          cases hk1
          simp [store_scene_graph, hr, storeRetryGo, h0, h1, h2]
        · intro a b c _ _ hk2; cases hk2
      · refine ⟨?_, ?_, ?_, ?_⟩
        · simp [store_scene_graph, hr, storeRetryGo, h0, h1, h2]
        · simp [store_scene_graph, hr, storeRetryGo, h0, h1, h2]
        · intro a b _ _ hk2; cases hk2
        · intro a b c hk0 hk1 hk2
          cases hk0
          cases hk1
          cases hk2
          simp [store_scene_graph, hr, storeRetryGo, h0, h1, h2]

/-- Closure invariant: every typed edge in the store references source
and target ids that are ids of stored Component nodes. -/
def edgesClosed (st : Store) : Prop :=
  ∀ e ∈ st.edges, e.source ∈ compKeys st ∧ e.target ∈ compKeys st

/-- Every single Cypher statement preserves edge closure: the
relationship statement MATCHes both endpoints before MERGEing. -/
theorem edgesClosed_applyOp {st : Store} (h : edgesClosed st) (op : WriteOp) :
    edgesClosed (applyOp st op) := by
  cases op with
  | wdiagram d =>
    obtain ⟨hc, _, he, _⟩ := applyOp_wdiagram_facets st d
    intro e hee
    rw [he] at hee
    obtain ⟨h1, h2⟩ := h e hee
    unfold compKeys
    rw [hc]
    exact ⟨h1, h2⟩
  | wcomponent did c =>
    obtain ⟨_, he, _, hc, _⟩ := applyOp_wcomponent_facets st did c
    intro e hee
    rw [he] at hee
    obtain ⟨h1, h2⟩ := h e hee
    unfold compKeys
    rw [hc]
    exact ⟨mem_keys_upsertBy_mono _ h1 _, mem_keys_upsertBy_mono _ h2 _⟩
  | wrelationship e0 =>
    obtain ⟨_, hcm, _, _, he⟩ := applyOp_wrelationship_facets st e0
    intro e hee
    rw [he] at hee
    have hck : compKeys (applyOp st (.wrelationship e0)) = compKeys st := by
      unfold compKeys
      rw [hcm]
    rw [hck]
    split at hee
    · rcases mem_upsertBy edgeKey hee with hin | rfl
      · exact h e hin
      · assumption
    · exact h e hee

/-- Edge closure is preserved by any statement sequence — complete or
partial. -/
theorem edgesClosed_foldl {st : Store} (h : edgesClosed st) (ops : List WriteOp) :
    edgesClosed (ops.foldl applyOp st) := by
  induction ops generalizing st with
  | nil => exact h
  | cons op ops ih =>
    rw [List.foldl_cons]
    exact ih (edgesClosed_applyOp h op)

/-- Edge closure is preserved by the whole retry loop, partial failed
attempts included. -/
theorem edgesClosed_storeRetryGo {st : Store} (h : edgesClosed st)
    (oracle : Nat → Option Nat) (g : SceneGraph) (attempts : List Nat) (sleeps : List Nat) :
    edgesClosed (storeRetryGo oracle g attempts st sleeps).2.1 := by
  induction attempts generalizing st sleeps with
  | nil => exact h
  | cons a rest ih =>
    unfold storeRetryGo
    rcases oracle a with _ | k
    · exact edgesClosed_foldl h _
    · rcases rest with _ | ⟨r, rs⟩
      · exact edgesClosed_foldl h _
      · exact ih (edgesClosed_foldl h _) _

/-- C1 (amended): relationships whose endpoints match no stored
component are dropped at store time, not during build — after any
`store_scene_graph` call (succeeding, retried or exhausted, partial
writes included) on a store satisfying edge closure, every persisted
typed edge still references only stored component ids; the relationship
write's MATCH of both endpoints silently skips unknown ids. -/
theorem store_drops_unknown_relationships (oracle : Nat → Option Nat) (g : SceneGraph)
    (st : Store) (h : edgesClosed st) :
    edgesClosed ((store_scene_graph oracle g st).2.1) :=
  edgesClosed_storeRetryGo h oracle g (List.range 3) []

/-- Membership is preserved by descending insertion. -/
theorem mem_insertByCreatedDesc {a d : DiagramListEntry} {l : List DiagramListEntry} :
    a ∈ insertByCreatedDesc d l ↔ a = d ∨ a ∈ l := by
  induction l with
  | nil => simp [insertByCreatedDesc]
  | cons x xs ih =>
    unfold insertByCreatedDesc
    split
    · simp
    · rw [List.mem_cons, ih, List.mem_cons]
      tauto

/-- Descending insertion never returns the empty list. -/
theorem insertByCreatedDesc_ne_nil (d : DiagramListEntry) (l : List DiagramListEntry) :
    insertByCreatedDesc d l ≠ [] := by
  cases l with
  | nil => simp [insertByCreatedDesc]
  | cons x xs =>
    unfold insertByCreatedDesc
    split <;> simp

/-- A nil descending sort comes only from a nil input. -/
theorem sortByCreatedDesc_eq_nil {l : List DiagramListEntry}
    (h : sortByCreatedDesc l = []) : l = [] := by
  cases l with
  | nil => rfl
  | cons x xs =>
    unfold sortByCreatedDesc at h
    rw [List.foldr_cons] at h
    exact absurd h (insertByCreatedDesc_ne_nil _ _)

/-- The head of the descending sort is a maximal element. -/
theorem sortByCreatedDesc_head_max {l : List DiagramListEntry} {d : DiagramListEntry}
    {rest : List DiagramListEntry} (h : sortByCreatedDesc l = d :: rest) :
    ∀ y ∈ l, y.created_at ≤ d.created_at := by
  induction l generalizing d rest with
  | nil => cases h
  | cons x xs ih =>
    unfold sortByCreatedDesc at h
    rw [List.foldr_cons] at h
    rcases hs : (sortByCreatedDesc xs) with _ | ⟨d0, r0⟩
    · have hxs := sortByCreatedDesc_eq_nil hs
      subst hxs
      unfold insertByCreatedDesc at h
      cases h
      intro y hy
      rcases List.mem_cons.mp hy with rfl | hy'
      · exact le_refl _
      · cases hy'
    · unfold sortByCreatedDesc at hs
      rw [hs] at h
      have hmax0 : ∀ y ∈ xs, y.created_at ≤ d0.created_at := ih hs
      unfold insertByCreatedDesc at h
      split at h
      · cases h
        intro y hy
        rcases List.mem_cons.mp hy with rfl | hy'
        · exact le_refl _
        · exact le_trans (hmax0 y hy') (by assumption)
      · cases h
        intro y hy
        rcases List.mem_cons.mp hy with rfl | hy'
        · exact le_of_not_le (by assumption)
        · exact hmax0 y hy'

/-- An empty diagram listing means an empty store. -/
theorem get_all_diagrams_nil_iff (st : Store) :
    get_all_diagrams st = [] ↔ st.diagrams = [] := by
  unfold get_all_diagrams
  constructor
  · intro h
    have := sortByCreatedDesc_eq_nil h
    cases hd : st.diagrams with
    | nil => rfl
    | cons d ds =>
      rw [hd] at this
      cases this
  · intro h
    rw [h]
    rfl

/-- C7: with no diagram id given, `query_scene_graphs` fails with the
NoDiagramsFound-class error when the store holds no diagrams; otherwise
it selects the head of the listing ordered by `created_at` descending —
a most recently created diagram — and fails with the
DiagramNotFound-class error when reconstruction of the chosen (or the
explicitly given) diagram yields nothing. All three outcomes hold for
every `llm` parameter, so both errors are raised before any
language-model call. -/
theorem query_scene_graphs_errors {α : Type} (st : Store) (llm : String → GraphData → α)
    (question : String) :
    (st.diagrams = [] → query_scene_graphs st llm question none = .error .noDiagramsFound)
    ∧ (∀ hd tl, get_all_diagrams st = hd :: tl →
        (∀ d ∈ st.diagrams, d.createdAt ≤ hd.created_at)
        ∧ (get_complete_scene_graph st hd.diagram_id = none →
            query_scene_graphs st llm question none = .error (.diagramNotFound hd.diagram_id)))
    ∧ (∀ did, get_complete_scene_graph st did = none →
        query_scene_graphs st llm question (some did) = .error (.diagramNotFound did)) := by
  refine ⟨?_, ?_, ?_⟩
  · intro h
    have he : get_all_diagrams st = [] := (get_all_diagrams_nil_iff st).mpr h
    unfold query_scene_graphs
    rw [he]
  · intro hd tl h
    constructor
    · intro d hdm
      unfold get_all_diagrams at h
      have hmem := List.mem_map_of_mem (fun d : DiagramNode =>
        (⟨d.id, d.title, d.createdAt, (st.contains.filter (fun p => p.1 = d.id)).length⟩
          : DiagramListEntry)) hdm
      exact sortByCreatedDesc_head_max h _ hmem
    · intro hnone
      unfold query_scene_graphs
      simp only [h, hnone]
  · intro did hnone
    unfold query_scene_graphs
    simp only [hnone]

/-! Concrete witnesses. -/

/-- Concrete sample graph (one component, one dangling relationship)
used to exercise the store theorems on explicit inputs. -/
def sampleGraph : SceneGraph :=
  { diagram_id := "d1", title := some "t",
    nodes := [{ id := "a", type := .pipe, name := "A", properties := [],
                position := none, dimensions := none }],
    relationships := [{ source_id := "a", target_id := "ghost", type := .connects_to,
                        properties := none }],
    metadata := [] }

/-- Witness: storing the sample graph into the empty store keeps every
persisted edge between stored components. -/
theorem store_drops_unknown_relationships_witness :
    edgesClosed ((store_scene_graph (fun _ => none) sampleGraph emptyStore).2.1) :=
  store_drops_unknown_relationships (fun _ => none) sampleGraph emptyStore
    (by intro e he; simp [emptyStore] at he)

/-- Witness: two failing attempts followed by a completing third attempt
report success with delays 1 and 2. -/
theorem store_scene_graph_retry_witness :
    store_scene_graph (fun i => if i < 2 then some 0 else none) sampleGraph emptyStore =
      (true,
       storeGraphOnce (applyWritesUpTo (applyWritesUpTo emptyStore sampleGraph 0) sampleGraph 0)
         sampleGraph,
       [1, 2]) :=
  (store_scene_graph_retry (fun i => if i < 2 then some 0 else none) sampleGraph
    emptyStore).2.2.1 0 0 rfl rfl rfl

/-- Witness: the sample graph round-trips its component ids through the
empty store. -/
theorem store_roundtrip_components_witness :
    (getComponentsOf ((store_scene_graph (fun _ => none) sampleGraph emptyStore).2.1)
        sampleGraph.diagram_id).map (fun c => c.id)
      = sampleGraph.nodes.map (fun n => n.id) :=
  store_roundtrip_components sampleGraph emptyStore (by decide)
    (by intro p hp; simp [emptyStore] at hp)

/-- Witness: querying the empty store without a diagram id fails with
the NoDiagramsFound-class error, for a concrete answer function. -/
theorem query_scene_graphs_errors_witness :
    query_scene_graphs emptyStore (fun _ _ => (0 : Nat)) "q" none
      = .error .noDiagramsFound :=
  (query_scene_graphs_errors emptyStore (fun _ _ => (0 : Nat)) "q").1 rfl

/-- Witness: building from the empty candidate object assigns the first
uuid draw as diagram id and consumes draws. -/
theorem build_fresh_diagram_id_witness :
    (({ diagram_id := "", title := some "Diagram from f", nodes := [], relationships := [],
        metadata := [("source_filename", Json.str "f"),
                     ("processing_timestamp", Json.str "u")] } : SceneGraph).diagram_id
      = (fun n => String.mk (List.replicate n 'u')) 0)
    ∧ 0 < 2
    ∧ ∀ sd2 fn2 sg2 k3,
        convert_to_scene_graph (fun n => String.mk (List.replicate n 'u')) 2 sd2 fn2
          = .ok (sg2, k3) →
        Function.Injective (fun n => String.mk (List.replicate n 'u')) →
        sg2.diagram_id ≠
          ({ diagram_id := "", title := some "Diagram from f", nodes := [], relationships := [],
             metadata := [("source_filename", Json.str "f"),
                          ("processing_timestamp", Json.str "u")] } : SceneGraph).diagram_id :=
  build_fresh_diagram_id (fun n => String.mk (List.replicate n 'u')) 0 (Json.obj []) "f" _ 2 rfl

/-- Witness: a two-candidate list with one invalid type tag builds to
exactly one component. -/
theorem build_resilient_witness :
    ∃ sg k2,
      convert_to_scene_graph (fun n => String.mk (List.replicate n 'u')) 0
        (Json.obj
          [("components", Json.arr
              [Json.obj [("id", Json.str "a"), ("type", Json.str "pipe"), ("name", Json.str "A")],
               Json.obj [("id", Json.str "b"), ("type", Json.str "rocket"), ("name", Json.str "B")]]),
           ("relationships", Json.arr [])]) "f.png" = .ok (sg, k2)
      ∧ sg.nodes.length ≤
          ([Json.obj [("id", Json.str "a"), ("type", Json.str "pipe"), ("name", Json.str "A")],
            Json.obj [("id", Json.str "b"), ("type", Json.str "rocket"), ("name", Json.str "B")]]
            : List Json).length
      ∧ sg.relationships.length ≤ ([] : List Json).length
      ∧ ∀ l1 bad l2,
          ([Json.obj [("id", Json.str "a"), ("type", Json.str "pipe"), ("name", Json.str "A")],
            Json.obj [("id", Json.str "b"), ("type", Json.str "rocket"), ("name", Json.str "B")]]
            : List Json) = l1 ++ bad :: l2 →
          (∀ j ∈ l1, ∀ u, (mkNodeFromJson u j).isSome = true) →
          (∀ j ∈ l2, ∀ u, (mkNodeFromJson u j).isSome = true) →
          (∀ u, mkNodeFromJson u bad = none) →
          sg.nodes.length = l1.length + l2.length :=
  build_resilient_to_malformed_entries (fun n => String.mk (List.replicate n 'u')) 0
    [("components", Json.arr
        [Json.obj [("id", Json.str "a"), ("type", Json.str "pipe"), ("name", Json.str "A")],
         Json.obj [("id", Json.str "b"), ("type", Json.str "rocket"), ("name", Json.str "B")]]),
     ("relationships", Json.arr [])] "f.png"
    [Json.obj [("id", Json.str "a"), ("type", Json.str "pipe"), ("name", Json.str "A")],
     Json.obj [("id", Json.str "b"), ("type", Json.str "rocket"), ("name", Json.str "B")]]
    [] rfl rfl (Or.inl rfl) (Or.inl rfl)

/-- Witness: the empty candidate dict receives all defaults, and a
relationship candidate with string endpoints and no tag defaults to
CONNECTS_TO. -/
theorem builder_defaults_witness :
    (∃ n, mkNodeFromObj "u" [] = some n ∧ n.type = ComponentType.pipe)
    ∧ (∃ n, mkNodeFromObj "u" [] = some n ∧ n.id = "u")
    ∧ (∃ n, mkNodeFromObj "u" [] = some n ∧ n.name = "Unknown")
    ∧ (mkNodeFromObj "u" [] = none ↔
        ∃ v, jlookup [] "type" = some v ∧ componentTypeFromJson v = none)
    ∧ (∃ r, mkRelFromJson (Json.obj [("source_id", Json.str "a"), ("target_id", Json.str "b")])
        = some r ∧ r.type = RelationshipType.connects_to) := by
  have T := builder_defaults "u" [] [("source_id", Json.str "a"), ("target_id", Json.str "b")]
  exact ⟨T.1 rfl rfl rfl rfl rfl rfl,
         T.2.1 rfl rfl rfl rfl rfl rfl,
         T.2.2.1 rfl rfl rfl rfl rfl rfl,
         T.2.2.2.1 rfl rfl rfl rfl rfl,
         T.2.2.2.2 rfl ⟨"a", rfl⟩ ⟨"b", rfl⟩ rfl⟩

end BuildingIntelligence
